import Mathlib

/-!
Verification of the grid-completion and prize-draw core of the badge-wallet
system, as a shallow embedding in Lean 4.

Conventions used throughout:
- Python floats are modelled as exact rationals.
- Python datetimes are modelled as natural numbers (larger = later), with the
  minimal datetime modelled as 0.
- Python strings are modelled as Lean strings; where digit/hex manipulation is
  involved, the character list of the string is used.
- Fallible Python code (raise) is modelled with Except over an error type that
  mirrors the Python exception classes that the sources raise.
- Database sessions are modelled by an explicit record store passed through the
  functions that query or mutate it.
-/

/-- Mirrors the Python exception classes raised by the embedded sources. -/
inductive Err
  | valueError (msg : String)
  | typeError (msg : String)
  | keyError (msg : String)
  | indexError
  deriving DecidableEq

/-- Returns true exactly on a TypeError outcome. -/
def is_type_error {α : Type} : Except Err α → Bool
  | .error (.typeError _) => true
  | _ => false

/-- A Python value passed where a string is expected: an actual string, the
None value, or any non-string object.  Needed because the source
distinguishes None (ValueError) from other non-strings (TypeError). -/
inductive PyObj
  | str (s : String)
  | pyNone
  | other
  deriving DecidableEq

/-- The whitespace characters stripped by the source via str.strip.
The source relies on the Python notion of whitespace; the model covers the
ASCII subset, which is all the embedded call sites can produce. -/
def is_py_space (c : Char) : Bool :=
  c == ' ' || c == '\t' || c == '\n' || c == '\r' || c == '\x0b' || c == '\x0c'

/-- Python str.strip: drop whitespace from both ends. -/
def py_strip (s : String) : String :=
  let l := s.toList.dropWhile is_py_space
  String.mk ((l.reverse.dropWhile is_py_space).reverse)

/-- Python str.lower on one character (ASCII model; the draw numbers the
system derives are ASCII). -/
def py_lower_char (c : Char) : Char :=
  if 'A' ≤ c && c ≤ 'Z' then Char.ofNat (c.toNat + 32) else c

/-- Python str.lower (ASCII model). -/
def py_lower (s : String) : String :=
  String.mk (s.toList.map py_lower_char)

/-- nictbw.prize_draw.draw_number._normalize_origin: validate and normalize a
raw NFT origin value by trimming and lower-casing. -/
def normalize_origin : PyObj → Except Err String
  | .pyNone => .error (.valueError "origin must not be None")
  | .other => .error (.typeError "origin must be a string")
  | .str s =>
    let normalized := py_lower (py_strip s)
    if normalized = "" then .error (.valueError "origin must not be empty")
    else .ok normalized

/-- nictbw.prize_draw.draw_number.derive_draw_number: the deterministic draw
number for an NFT origin. -/
def derive_draw_number (origin : PyObj) : Except Err String :=
  normalize_origin origin

/-- C9 (amended): derive trims surrounding whitespace and lower-cases its
input, so derive(" AbC ") == derive("abc"); it raises ValidationError on
empty or all-whitespace input; a non-string input other than None raises a
TypeError, while None raises a ValueError (not a type error).  derive is a
plain function of its argument, hence pure and deterministic. -/
theorem derive_draw_number_spec :
    derive_draw_number (.str " AbC ") = derive_draw_number (.str "abc") ∧
    derive_draw_number (.str "abc") = .ok "abc" ∧
    derive_draw_number (.str "") = .error (.valueError "origin must not be empty") ∧
    derive_draw_number (.str "   ") = .error (.valueError "origin must not be empty") ∧
    derive_draw_number .other = .error (.typeError "origin must be a string") ∧
    derive_draw_number .pyNone = .error (.valueError "origin must not be None") := by
  exact ⟨rfl, rfl, rfl, rfl, rfl, rfl⟩

/-- C9 counterexample: the None input is not a string, yet derive raises a
ValueError rather than a type error, refuting the claim that every
non-string input raises a type error. -/
theorem derive_draw_number_none_not_type_error :
    derive_draw_number .pyNone = .error (.valueError "origin must not be None") ∧
    is_type_error (derive_draw_number .pyNone) = false := by
  exact ⟨rfl, rfl⟩

/-!
SHA-256, as called by nictbw.prize_draw.scoring through hashlib.  Machine
words are naturals reduced modulo 2^32 at every arithmetic step; byte
strings are lists of naturals below 256.
-/

namespace SHA256

/-- The 32-bit modulus. -/
def M32 : ℕ := 2 ^ 32

/-- Right rotation of a 32-bit word. -/
def rotr (n x : ℕ) : ℕ := ((x >>> n) ||| (x <<< (32 - n))) % M32

/-- Logical right shift. -/
def shr (n x : ℕ) : ℕ := x >>> n

/-- Three-way xor. -/
def xor3 (a b c : ℕ) : ℕ := (a ^^^ b) ^^^ c

def big_sigma0 (x : ℕ) : ℕ := xor3 (rotr 2 x) (rotr 13 x) (rotr 22 x)

def big_sigma1 (x : ℕ) : ℕ := xor3 (rotr 6 x) (rotr 11 x) (rotr 25 x)

def small_sigma0 (x : ℕ) : ℕ := xor3 (rotr 7 x) (rotr 18 x) (shr 3 x)

def small_sigma1 (x : ℕ) : ℕ := xor3 (rotr 17 x) (rotr 19 x) (shr 10 x)

/-- Choice function; bitwise not is xor with the all-ones word. -/
def ch (e f g : ℕ) : ℕ := (e &&& f) ^^^ ((e ^^^ (M32 - 1)) &&& g)

/-- Majority function. -/
def maj (a b c : ℕ) : ℕ := xor3 (a &&& b) (a &&& c) (b &&& c)

/-- The 64 round constants. -/
def K : List ℕ :=
  [1116352408, 1899447441, 3049323471, 3921009573, 961987163,
   1508970993, 2453635748, 2870763221, 3624381080, 310598401,
   607225278, 1426881987, 1925078388, 2162078206, 2614888103,
   3248222580, 3835390401, 4022224774, 264347078, 604807628,
   770255983, 1249150122, 1555081692, 1996064986, 2554220882,
   2821834349, 2952996808, 3210313671, 3336571891, 3584528711,
   113926993, 338241895, 666307205, 773529912, 1294757372,
   1396182291, 1695183700, 1986661051, 2177026350, 2456956037,
   2730485921, 2820302411, 3259730800, 3345764771, 3516065817,
   3600352804, 4094571909, 275423344, 430227734, 506948616,
   659060556, 883997877, 958139571, 1322822218, 1537002063,
   1747873779, 1955562222, 2024104815, 2227730452, 2361852424,
   2428436474, 2756734187, 3204031479, 3329325298]

/-- The eight working variables of the compression state. -/
structure Hash where
  h0 : ℕ
  h1 : ℕ
  h2 : ℕ
  h3 : ℕ
  h4 : ℕ
  h5 : ℕ
  h6 : ℕ
  h7 : ℕ
  deriving DecidableEq

/-- Initial hash value. -/
def initial : Hash :=
  ⟨1779033703, 3144134277, 1013904242, 2773480762,
   1359893119, 2600822924, 528734635, 1541459225⟩

/-- Big-endian byte expansion to exactly n bytes. -/
def to_bytes_be : ℕ → ℕ → List ℕ
  | 0, _ => []
  | n + 1, x => to_bytes_be n (x / 256) ++ [x % 256]

/-- Big-endian word from a byte list. -/
def bytes_to_word (bs : List ℕ) : ℕ := bs.foldl (fun acc b => acc * 256 + b) 0

/-- Merkle-Damgard padding: one 0x80 byte, zeros to 56 mod 64, and the
bit length as eight big-endian bytes. -/
def pad (msg : List ℕ) : List ℕ :=
  let len := msg.length
  let zeros := (119 - len % 64) % 64
  msg ++ [0x80] ++ List.replicate zeros 0 ++ to_bytes_be 8 (len * 8)

/-- The sixteen message words of one 64-byte chunk. -/
def chunk_words (chunk : List ℕ) : List ℕ :=
  (List.range 16).map fun i => bytes_to_word ((chunk.drop (4 * i)).take 4)

/-- Append one extended message-schedule word. -/
def extend_w (w : List ℕ) : List ℕ :=
  let i := w.length
  w ++ [(small_sigma1 (w.getD (i - 2) 0) + w.getD (i - 7) 0 +
         small_sigma0 (w.getD (i - 15) 0) + w.getD (i - 16) 0) % M32]

/-- The 64-word message schedule of a chunk. -/
def schedule (chunk : List ℕ) : List ℕ :=
  (List.range 48).foldl (fun w _ => extend_w w) (chunk_words chunk)

/-- One round of the compression function. -/
def compress_step (st : ℕ × ℕ × ℕ × ℕ × ℕ × ℕ × ℕ × ℕ) (kw : ℕ × ℕ) :
    ℕ × ℕ × ℕ × ℕ × ℕ × ℕ × ℕ × ℕ :=
  let (a, b, c, d, e, f, g, h) := st
  let (k, w) := kw
  let t1 := (h + big_sigma1 e + ch e f g + k + w) % M32
  let t2 := (big_sigma0 a + maj a b c) % M32
  ((t1 + t2) % M32, a, b, c, (d + t1) % M32, e, f, g)

/-- Compress one 64-byte chunk into the running hash. -/
def process_chunk (H : Hash) (chunk : List ℕ) : Hash :=
  let w := schedule chunk
  let st := (K.zip w).foldl compress_step (H.h0, H.h1, H.h2, H.h3, H.h4, H.h5, H.h6, H.h7)
  let (a, b, c, d, e, f, g, h) := st
  ⟨(H.h0 + a) % M32, (H.h1 + b) % M32, (H.h2 + c) % M32, (H.h3 + d) % M32,
   (H.h4 + e) % M32, (H.h5 + f) % M32, (H.h6 + g) % M32, (H.h7 + h) % M32⟩

/-- Split a byte list into 64-byte chunks. -/
def chunks64 (l : List ℕ) : List (List ℕ) :=
  if h : l = [] then []
  else l.take 64 :: chunks64 (l.drop 64)
termination_by l.length
decreasing_by
  simp only [List.length_drop]
  exact Nat.sub_lt (List.length_pos.mpr h) (by decide)

/-- The final hash state of a byte message. -/
def sha256_words (msg : List ℕ) : Hash :=
  (chunks64 (pad msg)).foldl process_chunk initial

/-- The 32-byte digest of a byte message. -/
def digest_bytes (msg : List ℕ) : List ℕ :=
  let H := sha256_words msg
  [H.h0, H.h1, H.h2, H.h3, H.h4, H.h5, H.h6, H.h7].bind (to_bytes_be 4)

def hex_chars : List Char := "0123456789abcdef".toList

/-- Two lowercase hex characters of one byte. -/
def byte_to_hex (b : ℕ) : List Char :=
  [hex_chars.getD (b / 16 % 16) '0', hex_chars.getD (b % 16) '0']

/-- Lowercase hex characters of a byte list, as hashlib hexdigest produces. -/
def bytes_to_hex (bs : List ℕ) : List Char := bs.bind byte_to_hex

theorem to_bytes_be_length : ∀ n x, (to_bytes_be n x).length = n := by
  intro n
  induction n with
  | zero => intro x; rfl
  | succ m ih =>
    intro x
    simp [to_bytes_be, ih]

theorem digest_bytes_length (msg : List ℕ) : (digest_bytes msg).length = 32 := by
  simp [digest_bytes, List.bind, to_bytes_be_length]

theorem bytes_to_hex_length : ∀ bs : List ℕ, (bytes_to_hex bs).length = 2 * bs.length := by
  intro bs
  induction bs with
  | nil => rfl
  | cons b t ih =>
    simp only [bytes_to_hex, List.bind] at ih ⊢
    simp [List.length_append, ih, byte_to_hex]
    ring

end SHA256

/-- Whether every character of a string is ASCII; mirrors the success
condition of value.encode with the ascii codec. -/
def ascii_only (s : String) : Bool := s.toList.all (fun c => c.toNat < 128)

/-- nictbw.prize_draw.scoring._sha256_hexdigest: the SHA-256 hex digest of a
string encoded as ASCII, as a character list; ValueError on non-ASCII. -/
def sha256_hexdigest (value : String) : Except Err (List Char) :=
  if ascii_only value then
    .ok (SHA256.bytes_to_hex (SHA256.digest_bytes (value.toList.map Char.toNat)))
  else
    .error (.valueError "draw and winning numbers must contain only ASCII characters")

theorem sha256_hexdigest_length {v : String} {h : List Char}
    (hv : sha256_hexdigest v = .ok h) : h.length = 64 := by
  by_cases ha : ascii_only v = true
  · rw [sha256_hexdigest, if_pos ha] at hv
    cases hv
    rw [SHA256.bytes_to_hex_length, SHA256.digest_bytes_length]
  · rw [sha256_hexdigest, if_neg ha] at hv
    cases hv

/-- nictbw.prize_draw.scoring.ScoreComputation.  Scores are modelled as
exact rationals in place of Python floats. -/
structure ScoreComputation where
  score : ℚ
  draw_top_digits : List Char
  winning_top_digits : List Char
  deriving DecidableEq

/-- nictbw.prize_draw.scoring._extract_top_digits: the leftmost 10 decimal
digits after scaling down by 10 to the 67, zero-filled to width 10. -/
def extract_top_digits (value : ℕ) : List Char :=
  let scaled := value / 10 ^ 67
  let text := Nat.toDigits 10 scaled
  let text := if text.length > 10 then text.take 10 else text
  List.replicate (10 - text.length) '0' ++ text

/-- Integer value of a lowercase hex character list, as int(text, 16)
computes on a well-formed digest. -/
def hex_to_nat (l : List Char) : ℕ :=
  l.foldl (fun acc c =>
    acc * 16 +
      (if '0' ≤ c && c ≤ '9' then c.toNat - 48
       else if 'a' ≤ c && c ≤ 'f' then c.toNat - 87
       else 0)) 0

/-- nictbw.prize_draw.scoring._sha256_hex_similarity: hash both inputs and
score by hex proximity.  The float constants 0.6 and 1.5 are modelled as the
exact rationals they denote. -/
def sha256_hex_similarity (draw_number winning_number : String) :
    Except Err ScoreComputation := do
  let hashed_left ← sha256_hexdigest draw_number
  let hashed_right ← sha256_hexdigest winning_number
  if hashed_left.length ≠ hashed_right.length then
    .error (.valueError "hashed draw and winning numbers must be the same length")
  else
    let left_int := hex_to_nat hashed_left
    let right_int := hex_to_nat hashed_right
    let diff := ((left_int : ℤ) - (right_int : ℤ)).natAbs
    let max_value := 2 ^ (hashed_left.length * 4) - 1
    if max_value ≤ 0 then
      .ok ⟨1, extract_top_digits left_int, extract_top_digits right_int⟩
    else
      let similarity : ℚ := ((6 : ℚ) / 10 - (diff : ℚ) / (max_value : ℚ)) * (15 / 10)
      let similarity := if similarity < 0 then 0 else similarity
      let similarity := if similarity > 1 then 1 else similarity
      .ok ⟨similarity, extract_top_digits left_int, extract_top_digits right_int⟩

theorem sha256_hex_similarity_eq (x : String) :
    sha256_hex_similarity x x =
      (sha256_hexdigest x).bind (fun hashed_left =>
       (sha256_hexdigest x).bind (fun hashed_right =>
        if hashed_left.length ≠ hashed_right.length then
          .error (.valueError "hashed draw and winning numbers must be the same length")
        else
          let left_int := hex_to_nat hashed_left
          let right_int := hex_to_nat hashed_right
          let diff := ((left_int : ℤ) - (right_int : ℤ)).natAbs
          let max_value := 2 ^ (hashed_left.length * 4) - 1
          if max_value ≤ 0 then
            .ok ⟨1, extract_top_digits left_int, extract_top_digits right_int⟩
          else
            let similarity : ℚ := ((6 : ℚ) / 10 - (diff : ℚ) / (max_value : ℚ)) * (15 / 10)
            let similarity := if similarity < 0 then 0 else similarity
            let similarity := if similarity > 1 then 1 else similarity
            .ok ⟨similarity, extract_top_digits left_int, extract_top_digits right_int⟩)) := rfl

theorem sha256_hex_similarity_self (x : String) (hx : ascii_only x = true) :
    Except.map ScoreComputation.score (sha256_hex_similarity x x) = .ok (9 / 10 : ℚ) := by
  have hd : sha256_hexdigest x =
      .ok (SHA256.bytes_to_hex (SHA256.digest_bytes (x.toList.map Char.toNat))) := by
    rw [sha256_hexdigest, if_pos hx]
  have hlen := sha256_hexdigest_length hd
  set H := SHA256.bytes_to_hex (SHA256.digest_bytes (x.toList.map Char.toNat)) with hH
  rw [sha256_hex_similarity_eq, hd]
  rw [Except.bind, Except.bind]
  rw [if_neg (by simp)]
  simp only [Int.sub_self, Int.natAbs_zero, hlen]
  rw [if_neg (by norm_num)]
  simp only [Except.map]
  rw [Except.ok.injEq]
  norm_num

/-- C1 (amended): for every ASCII string x, the default scoring algorithm
sha256_hex_proximity applied to the same string as both draw number and
winning number yields a similarity score equal to 0.9 (the hashes agree, so
the score is (0.6 - 0) * 1.5), not 1.0. -/
theorem sha256_hex_proximity_self_score (x : String) (hx : ascii_only x = true) :
    Except.map ScoreComputation.score (sha256_hex_similarity x x) = .ok (9 / 10 : ℚ) :=
  sha256_hex_similarity_self x hx

/-- C1 witness: the amended claim evaluated at the concrete ASCII string a. -/
theorem sha256_hex_proximity_self_score_witness :
    ascii_only "a" = true ∧
    Except.map ScoreComputation.score (sha256_hex_similarity "a" "a") = .ok (9 / 10 : ℚ) :=
  ⟨by decide, sha256_hex_proximity_self_score "a" (by decide)⟩

/-- C1 counterexample: at the ASCII string a, scoring the same string
against itself does not give similarity 1.0 (it gives 0.9). -/
theorem sha256_hex_proximity_self_not_one :
    Except.map ScoreComputation.score (sha256_hex_similarity "a" "a") ≠ .ok (1 : ℚ) := by
  rw [sha256_hex_similarity_self "a" (by decide)]
  intro h
  rw [Except.ok.injEq] at h
  norm_num at h

/-!
The grid-completion engine: nictbw.models.bingo (BingoCard, BingoCell) and
the per-card reconciliation step of nictbw.models.user.User.ensure_bingo_cells.
Cell and card states are the literal strings used by the source.
-/

/-- nictbw.models.ownership.UserNFTOwnership, restricted to the fields the
grid engine reads.  nft_id identifies the owned NFT definition, which is
also what grid cells target. -/
structure UserNFTOwnership where
  id : ℕ
  user_id : ℕ
  nft_id : ℕ
  deriving DecidableEq

/-- nictbw.models.bingo.BingoCell, restricted to the fields the engine
reads and writes. -/
structure BingoCell where
  idx : ℕ
  target_template_id : ℕ
  nft_id : Option ℕ
  matched_ownership_id : Option ℕ
  state : String
  unlocked_at : Option ℕ
  deriving DecidableEq

/-- nictbw.models.bingo.BingoCard, restricted to the fields the engine
reads and writes; cells carries the card's cell children. -/
structure BingoCard where
  user_id : ℕ
  issued_at : ℕ
  completed_at : Option ℕ
  state : String
  cells : List BingoCell
  deriving DecidableEq

/-- The random.Random collaborator of BingoCard.generate_for_user: the two
operations the generator calls.  The standard library guarantees sample
returns k distinct elements of its input and shuffle permutes its input;
theorems take those guarantees as hypotheses. -/
structure PyRandom where
  sample : List ℕ → ℕ → List ℕ
  shuffle : List ℕ → List ℕ

/-- The candidate pool of BingoCard.generate_for_user: included ids if any
were given, else all known definition ids; minus the centre id and the
excluded ids.  Python sets are modelled as deduplicated lists. -/
def bingo_candidates (all_ids included excluded : List ℕ) (center_id : ℕ) : List ℕ :=
  let included_ids := included.dedup
  let excluded_ids := excluded.dedup
  let base := if included_ids ≠ [] then included_ids else all_ids.dedup
  base.filter (fun t => t != center_id && !(excluded_ids.contains t))

/-- The ownership_map lookup of generate_for_user: the dict built from the
user's ownerships keyed by owned definition id (later entries win, matching
dict comprehension semantics; the source restricts the query to the
template ids needed, which leaves every lookup unchanged). -/
def ownership_map (ownerships : List UserNFTOwnership) (tid : ℕ) : Option UserNFTOwnership :=
  (ownerships.filter (fun o => o.nft_id == tid)).getLast?

/-- The build_cell helper of generate_for_user: pre-unlocked when the user
already owns the target definition, otherwise locked. -/
def build_cell (ownerships : List UserNFTOwnership) (now : ℕ) (idx tid : ℕ) : BingoCell :=
  match ownership_map ownerships tid with
  | some o =>
      { idx := idx, target_template_id := tid, nft_id := some o.nft_id,
        matched_ownership_id := some o.id, state := "unlocked", unlocked_at := some now }
  | none =>
      { idx := idx, target_template_id := tid, nft_id := none,
        matched_ownership_id := none, state := "locked", unlocked_at := none }

/-- nictbw.models.bingo.BingoCard.generate_for_user.  ownerships is the
recipient's ownership list; all_ids the ids of all known NFT definitions. -/
def generate_for_user (all_ids : List ℕ) (ownerships : List UserNFTOwnership)
    (user_id center_id : ℕ) (excluded included : List ℕ)
    (issued_at : ℕ) (state : String) (rng : PyRandom) (now : ℕ) :
    Except Err BingoCard :=
  let candidate_ids := bingo_candidates all_ids included excluded center_id
  if candidate_ids.length < 8 then
    .error (.valueError "Not enough NFTs to populate bingo card")
  else
    let selected_ids := rng.sample candidate_ids 8
    let positions := rng.shuffle [0, 1, 2, 3, 5, 6, 7, 8]
    let cells := build_cell ownerships now 4 center_id ::
      (positions.zip selected_ids).map (fun p => build_cell ownerships now p.1 p.2)
    .ok { user_id := user_id, issued_at := issued_at, completed_at := none,
          state := state, cells := cells }

/-- The per-cell body of the unlock loop in
BingoCard.unlock_cells_for_ownership. -/
def unlock_cell_for (o : UserNFTOwnership) (now : ℕ) (cell : BingoCell) : BingoCell :=
  if cell.state == "locked" && cell.target_template_id == o.nft_id then
    { cell with
      nft_id := some o.nft_id, matched_ownership_id := some o.id,
      state := "unlocked", unlocked_at := some now }
  else cell

/-- nictbw.models.bingo.BingoCard.unlock_cells_for_ownership: unlock every
locked cell targeting the ownership's definition, then complete the card
when something was unlocked, completed_at is unset and all cells are now
unlocked.  Returns the updated card and the unlocked_any flag. -/
def unlock_cells_for_ownership (card : BingoCard) (o : UserNFTOwnership) (now : ℕ) :
    BingoCard × Bool :=
  let unlocked_any := card.cells.any
    (fun cell => cell.state == "locked" && cell.target_template_id == o.nft_id)
  let cells := card.cells.map (unlock_cell_for o now)
  let card2 := { card with cells := cells }
  if unlocked_any && card2.completed_at.isNone &&
      cells.all (fun cell => cell.state == "unlocked") then
    ({ card2 with completed_at := some now, state := "completed" }, unlocked_any)
  else
    (card2, unlocked_any)

/-- The per-cell body of the reconciliation loop in
User.ensure_bingo_cells: unlock a locked cell whose target the map covers. -/
def ensure_cell_for (omap : ℕ → Option UserNFTOwnership) (now : ℕ) (cell : BingoCell) :
    BingoCell :=
  if cell.state == "locked" then
    match omap cell.target_template_id with
    | some o =>
        { cell with
          nft_id := some o.nft_id, matched_ownership_id := some o.id,
          state := "unlocked", unlocked_at := some now }
    | none => cell
  else cell

/-- The single-card step of nictbw.models.user.User.ensure_bingo_cells:
skip non-active cards; unlock locked cells covered by the ownership map;
complete the card when something was unlocked, completed_at is unset and
all cells are now unlocked.  Returns the updated card and the number of
cells unlocked. -/
def ensure_cells_for_card (omap : ℕ → Option UserNFTOwnership) (now : ℕ)
    (card : BingoCard) : BingoCard × ℕ :=
  if card.state != "active" then (card, 0)
  else
    let count := (card.cells.filter
      (fun cell => cell.state == "locked" && (omap cell.target_template_id).isSome)).length
    let cells := card.cells.map (ensure_cell_for omap now)
    let card2 := { card with cells := cells }
    if count != 0 && card2.completed_at.isNone &&
        cells.all (fun cell => cell.state == "unlocked") then
      ({ card2 with completed_at := some now, state := "completed" }, count)
    else
      (card2, count)

/-- nictbw.models.bingo.BingoCard.winning_lines: the 8 canonical
tic-tac-toe index triples. -/
def winning_lines : List (ℕ × ℕ × ℕ) :=
  [(0, 1, 2), (3, 4, 5), (6, 7, 8), (0, 3, 6), (1, 4, 7), (2, 5, 8), (0, 4, 8), (2, 4, 6)]

/-- The loop of BingoCard.completed_lines: positional cell indexing, as the
source's self.cells[a]; an out-of-range position raises IndexError. -/
def completed_lines_go (cells : List BingoCell) :
    List (ℕ × ℕ × ℕ) → Except Err (List (ℕ × ℕ × ℕ))
  | [] => .ok []
  | l :: ls =>
    match cells.get? l.1, cells.get? l.2.1, cells.get? l.2.2 with
    | some x, some y, some z =>
      (completed_lines_go cells ls).map (fun rest =>
        if x.state == "unlocked" && y.state == "unlocked" && z.state == "unlocked" then
          l :: rest
        else rest)
    | _, _, _ => .error .indexError

/-- nictbw.models.bingo.BingoCard.completed_lines. -/
def completed_lines (card : BingoCard) : Except Err (List (ℕ × ℕ × ℕ)) :=
  completed_lines_go card.cells winning_lines

/-- Whether the three positional cells of a line are all unlocked. -/
def line_unlocked (cells : List BingoCell) (l : ℕ × ℕ × ℕ) : Bool :=
  match cells.get? l.1, cells.get? l.2.1, cells.get? l.2.2 with
  | some x, some y, some z =>
    x.state == "unlocked" && y.state == "unlocked" && z.state == "unlocked"
  | _, _, _ => false

theorem unlock_cell_for_no_relock (o : UserNFTOwnership) (now : ℕ) (c : BingoCell) :
    ((unlock_cell_for o now c).state == "locked" &&
     (unlock_cell_for o now c).target_template_id == o.nft_id) = false := by
  unfold unlock_cell_for
  split
  · simp
  · rename_i h
    simpa using h

theorem unlock_cell_for_idem (o : UserNFTOwnership) (now2 now1 : ℕ) (c : BingoCell) :
    unlock_cell_for o now2 (unlock_cell_for o now1 c) = unlock_cell_for o now1 c := by
  have h := unlock_cell_for_no_relock o now1 c
  conv_lhs => rw [unlock_cell_for]
  rw [if_neg (by simp [h])]

theorem unlock_fst_cells (card : BingoCard) (o : UserNFTOwnership) (now : ℕ) :
    (unlock_cells_for_ownership card o now).1.cells =
      card.cells.map (unlock_cell_for o now) := by
  unfold unlock_cells_for_ownership
  dsimp only
  split <;> rfl

/-- C6: calling unlock_cells_for_ownership a second time with the same
ownership is idempotent: the second call returns false and leaves the card,
its cells, its completed_at and its state exactly as the first call left
them. -/
theorem unlock_cells_for_ownership_idempotent (card : BingoCard) (o : UserNFTOwnership)
    (now1 now2 : ℕ) :
    unlock_cells_for_ownership (unlock_cells_for_ownership card o now1).1 o now2 =
      ((unlock_cells_for_ownership card o now1).1, false) := by
  have hcells := unlock_fst_cells card o now1
  have hany : ((unlock_cells_for_ownership card o now1).1.cells.any
      (fun cell => cell.state == "locked" && cell.target_template_id == o.nft_id)) = false := by
    rw [hcells, List.any_map]
    rw [List.any_eq_false]
    intro c hc
    simp only [Function.comp]
    simp [unlock_cell_for_no_relock o now1 c]
  have hmap : (unlock_cells_for_ownership card o now1).1.cells.map (unlock_cell_for o now2) =
      (unlock_cells_for_ownership card o now1).1.cells := by
    rw [hcells, List.map_map]
    exact List.map_congr_left (fun c _ => unlock_cell_for_idem o now2 now1 c)
  conv_lhs => rw [unlock_cells_for_ownership]
  simp only [hany, hmap, Bool.false_and, Bool.and_self, if_false]
  rfl

theorem completed_lines_go_ok (cells : List BingoCell) :
    ∀ ls : List (ℕ × ℕ × ℕ),
      (∀ l ∈ ls, l.1 < cells.length ∧ l.2.1 < cells.length ∧ l.2.2 < cells.length) →
      completed_lines_go cells ls = .ok (ls.filter (line_unlocked cells)) := by
  intro ls
  induction ls with
  | nil => intro _; rfl
  | cons l t ih =>
    intro h
    obtain ⟨h1, h2, h3⟩ := h l (List.mem_cons_self l t)
    rw [completed_lines_go]
    rw [List.get?_eq_get h1, List.get?_eq_get h2, List.get?_eq_get h3]
    rw [ih (fun m hm => h m (List.mem_cons_of_mem _ hm))]
    rw [List.filter_cons]
    simp only [line_unlocked, List.get?_eq_get h1, List.get?_eq_get h2, List.get?_eq_get h3]
    simp [Except.map]

theorem completed_lines_go_oob (cells : List BingoCell) :
    ∀ ls : List (ℕ × ℕ × ℕ),
      (∃ l ∈ ls, cells.length ≤ l.1 ∨ cells.length ≤ l.2.1 ∨ cells.length ≤ l.2.2) →
      completed_lines_go cells ls = .error .indexError := by
  intro ls
  induction ls with
  | nil =>
    rintro ⟨l, hl, _⟩
    cases hl
  | cons l t ih =>
    intro hex
    rw [completed_lines_go]
    cases hg1 : cells.get? l.1 with
    | none => rfl
    | some x =>
      cases hg2 : cells.get? l.2.1 with
      | none => rfl
      | some y =>
        cases hg3 : cells.get? l.2.2 with
        | none => rfl
        | some z =>
          have ht : ∃ m ∈ t,
              cells.length ≤ m.1 ∨ cells.length ≤ m.2.1 ∨ cells.length ≤ m.2.2 := by
            rcases hex with ⟨m, hm, hoob⟩
            rcases List.mem_cons.mp hm with heq | hmt
            · exfalso
              subst heq
              obtain ⟨e1, _⟩ := List.get?_eq_some.mp hg1
              obtain ⟨e2, _⟩ := List.get?_eq_some.mp hg2
              obtain ⟨e3, _⟩ := List.get?_eq_some.mp hg3
              omega
            · exact ⟨m, hmt, hoob⟩
          rw [ih ht]
          rfl

/-- C7 (amended): completed_lines indexes the card's cell list positionally,
so for a card with at least 9 cells it returns exactly the subset of the 8
canonical tic-tac-toe index triples whose three positional cells are all
unlocked (for more than 9 cells it still only inspects positions 0 to 8),
while for a card with fewer than 9 cells it raises IndexError rather than
returning the empty list. -/
theorem completed_lines_spec (card : BingoCard) :
    (9 ≤ card.cells.length →
      completed_lines card = .ok (winning_lines.filter (line_unlocked card.cells))) ∧
    (card.cells.length < 9 →
      completed_lines card = .error .indexError) := by
  constructor
  · intro h9
    apply completed_lines_go_ok
    intro l hl
    fin_cases hl <;> refine ⟨?_, ?_, ?_⟩ <;> dsimp only <;> omega
  · intro hlt
    apply completed_lines_go_oob
    refine ⟨(6, 7, 8), by decide, ?_⟩
    right; right
    dsimp only
    omega

/-- C7 witness: a 3-by-3 card with its first row unlocked. -/
theorem completed_lines_spec_witness :
    9 ≤ (BingoCard.mk 1 0 none "active"
      ((List.range 9).map (fun i =>
        BingoCell.mk i i none none (if i < 3 then "unlocked" else "locked") none))).cells.length ∧
    completed_lines (BingoCard.mk 1 0 none "active"
      ((List.range 9).map (fun i =>
        BingoCell.mk i i none none (if i < 3 then "unlocked" else "locked") none))) =
      .ok (winning_lines.filter (line_unlocked
        ((List.range 9).map (fun i =>
          BingoCell.mk i i none none (if i < 3 then "unlocked" else "locked") none)))) :=
  ⟨by decide,
   (completed_lines_spec (BingoCard.mk 1 0 none "active"
      ((List.range 9).map (fun i =>
        BingoCell.mk i i none none (if i < 3 then "unlocked" else "locked") none)))).1 (by decide)⟩

/-- C7 counterexample: a card with no cells is not a 3-by-3 grid, and
completed_lines raises IndexError on it instead of returning the empty
list. -/
theorem completed_lines_empty_card_raises :
    completed_lines (BingoCard.mk 0 0 none "active" []) = .error .indexError ∧
    completed_lines (BingoCard.mk 0 0 none "active" []) ≠ .ok [] := by
  refine ⟨rfl, fun h => Except.noConfusion h⟩

theorem build_cell_idx (os : List UserNFTOwnership) (now i t : ℕ) :
    (build_cell os now i t).idx = i := by
  unfold build_cell
  cases ownership_map os t <;> rfl

theorem build_cell_target (os : List UserNFTOwnership) (now i t : ℕ) :
    (build_cell os now i t).target_template_id = t := by
  unfold build_cell
  cases ownership_map os t <;> rfl

theorem bingo_candidates_ne_center (all_ids included excluded : List ℕ) (center_id : ℕ) :
    ∀ t ∈ bingo_candidates all_ids included excluded center_id, t ≠ center_id := by
  intro t ht
  unfold bingo_candidates at ht
  have := List.of_mem_filter ht
  simp only [Bool.and_eq_true, bne_iff_ne, ne_eq] at this
  exact this.1

/-- C4: when at least 8 candidates remain after removing the centre id and
the excluded ids, generate_for_user returns a card with exactly 9 cells
whose indices are 0 to 8, all 9 target definitions distinct, the centre
cell fixed at idx 4 holding the requested centre definition and every
non-centre cell holding one of the 8 sampled candidates; with fewer than 8
candidates it fails with the ValidationError of the source.  The sample and
shuffle hypotheses are the contract of random.sample and random.shuffle. -/
theorem generate_for_user_spec (all_ids : List ℕ) (ownerships : List UserNFTOwnership)
    (user_id center_id : ℕ) (excluded included : List ℕ) (issued_at : ℕ) (state : String)
    (rng : PyRandom) (now : ℕ)
    (hs_len : (rng.sample (bingo_candidates all_ids included excluded center_id) 8).length = 8)
    (hs_nodup : (rng.sample (bingo_candidates all_ids included excluded center_id) 8).Nodup)
    (hs_mem : ∀ t ∈ rng.sample (bingo_candidates all_ids included excluded center_id) 8,
        t ∈ bingo_candidates all_ids included excluded center_id)
    (hp : List.Perm (rng.shuffle [0, 1, 2, 3, 5, 6, 7, 8]) [0, 1, 2, 3, 5, 6, 7, 8]) :
    (¬ (bingo_candidates all_ids included excluded center_id).length < 8 →
      ∃ card, generate_for_user all_ids ownerships user_id center_id excluded included
          issued_at state rng now = .ok card ∧
        card.cells.length = 9 ∧
        List.Perm (card.cells.map (fun c => c.idx)) [0, 1, 2, 3, 4, 5, 6, 7, 8] ∧
        (card.cells.map (fun c => c.target_template_id)).Nodup ∧
        (∀ c ∈ card.cells, c.idx = 4 → c.target_template_id = center_id) ∧
        (∀ c ∈ card.cells, c.idx ≠ 4 → c.target_template_id ∈
          rng.sample (bingo_candidates all_ids included excluded center_id) 8)) ∧
    ((bingo_candidates all_ids included excluded center_id).length < 8 →
      generate_for_user all_ids ownerships user_id center_id excluded included
          issued_at state rng now =
        .error (.valueError "Not enough NFTs to populate bingo card")) := by
  set cand := bingo_candidates all_ids included excluded center_id with hcand
  set S := rng.sample cand 8 with hS
  set P := rng.shuffle [0, 1, 2, 3, 5, 6, 7, 8] with hP
  have hPlen : P.length = 8 := hp.length_eq
  have hzip_fst : (P.zip S).map Prod.fst = P :=
    List.map_fst_zip P S (by rw [hPlen, hs_len])
  have hzip_snd : (P.zip S).map Prod.snd = S :=
    List.map_snd_zip P S (by rw [hPlen, hs_len])
  constructor
  · intro hge
    refine ⟨⟨user_id, issued_at, none, state,
      build_cell ownerships now 4 center_id ::
        (P.zip S).map (fun p => build_cell ownerships now p.1 p.2)⟩, ?_, ?_, ?_, ?_, ?_, ?_⟩
    · unfold generate_for_user
      dsimp only
      rw [← hcand, if_neg hge, ← hS, ← hP]
    · simp only [List.length_cons, List.length_map, List.length_zip, hPlen, hs_len]
      rfl
    · have : (build_cell ownerships now 4 center_id ::
          (P.zip S).map (fun p => build_cell ownerships now p.1 p.2)).map (fun c => c.idx) =
          4 :: P := by
        simp only [List.map_cons, build_cell_idx, List.map_map]
        congr 1
        rw [show ((fun c : BingoCell => c.idx) ∘ fun p : ℕ × ℕ =>
            build_cell ownerships now p.1 p.2) = Prod.fst from ?_, hzip_fst]
        funext p
        simp [build_cell_idx]
      rw [this]
      exact (hp.cons 4).trans (by decide)
    · have : (build_cell ownerships now 4 center_id ::
          (P.zip S).map (fun p => build_cell ownerships now p.1 p.2)).map
            (fun c => c.target_template_id) = center_id :: S := by
        simp only [List.map_cons, build_cell_target, List.map_map]
        congr 1
        rw [show ((fun c : BingoCell => c.target_template_id) ∘ fun p : ℕ × ℕ =>
            build_cell ownerships now p.1 p.2) = Prod.snd from ?_, hzip_snd]
        funext p
        simp [build_cell_target]
      rw [this]
      exact List.nodup_cons.mpr
        ⟨fun hmem => bingo_candidates_ne_center all_ids included excluded center_id
          center_id (hs_mem center_id hmem) rfl, hs_nodup⟩
    · intro c hc h4
      rcases List.mem_cons.mp hc with rfl | hmem
      · exact build_cell_target ownerships now 4 center_id
      · exfalso
        obtain ⟨p, hp2, rfl⟩ := List.mem_map.mp hmem
        have hfst : p.1 ∈ P := (List.mem_zip hp2).1
        have : p.1 ∈ [0, 1, 2, 3, 5, 6, 7, 8] := hp.mem_iff.mp hfst
        have hne : p.1 ≠ 4 := by
          simp only [List.mem_cons, List.not_mem_nil, or_false] at this
          omega
        rw [build_cell_idx] at h4
        exact hne h4
    · intro c hc h4
      rcases List.mem_cons.mp hc with rfl | hmem
      · exact absurd (build_cell_idx ownerships now 4 center_id) h4
      · obtain ⟨p, hp2, rfl⟩ := List.mem_map.mp hmem
        rw [build_cell_target]
        exact (List.mem_zip hp2).2
  · intro hlt
    unfold generate_for_user
    rw [if_pos hlt]

/-- A deterministic stand-in for random.Random used by concrete witnesses:
sample takes a prefix and shuffle keeps the order. -/
def c4_rng : PyRandom := ⟨fun l k => l.take k, fun l => l⟩

/-- C4 witness: generation over the pool 1..9 with centre 9. -/
theorem generate_for_user_spec_witness :
    ((c4_rng.sample (bingo_candidates [1, 2, 3, 4, 5, 6, 7, 8, 9] [] [] 9) 8).length = 8 ∧
     (c4_rng.sample (bingo_candidates [1, 2, 3, 4, 5, 6, 7, 8, 9] [] [] 9) 8).Nodup ∧
     List.Perm (c4_rng.shuffle [0, 1, 2, 3, 5, 6, 7, 8]) [0, 1, 2, 3, 5, 6, 7, 8] ∧
     ¬ (bingo_candidates [1, 2, 3, 4, 5, 6, 7, 8, 9] [] [] 9).length < 8) ∧
    (∃ card, generate_for_user [1, 2, 3, 4, 5, 6, 7, 8, 9] [] 7 9 [] [] 0 "active" c4_rng 0 =
        .ok card ∧
      card.cells.length = 9 ∧
      List.Perm (card.cells.map (fun c => c.idx)) [0, 1, 2, 3, 4, 5, 6, 7, 8] ∧
      (card.cells.map (fun c => c.target_template_id)).Nodup ∧
      (∀ c ∈ card.cells, c.idx = 4 → c.target_template_id = 9) ∧
      (∀ c ∈ card.cells, c.idx ≠ 4 → c.target_template_id ∈
        c4_rng.sample (bingo_candidates [1, 2, 3, 4, 5, 6, 7, 8, 9] [] [] 9) 8)) :=
  ⟨⟨by decide, by decide, by decide, by decide⟩,
   (generate_for_user_spec [1, 2, 3, 4, 5, 6, 7, 8, 9] [] 7 9 [] [] 0 "active" c4_rng 0
      (by decide) (by decide) (by decide) (by decide)).1 (by decide)⟩

/-!
Operation sequences over one bingo card: the unlock entry point and the
per-card reconciliation step, used to state lifecycle invariants.
-/

/-- One operation applied to a card: an ownership unlock or an
ensure_bingo_cells reconciliation pass with an ownership map. -/
inductive BingoOp where
  | unlock (o : UserNFTOwnership) (now : ℕ)
  | reconcile (omap : ℕ → Option UserNFTOwnership) (now : ℕ)

/-- The card component of one operation. -/
def apply_bingo_op (card : BingoCard) : BingoOp → BingoCard
  | .unlock o now => (unlock_cells_for_ownership card o now).1
  | .reconcile omap now => (ensure_cells_for_card omap now card).1

/-- Whether the operation unlocked at least one cell: the unlocked_any flag
of unlock_cells_for_ownership, or a nonzero unlock count of the
reconciliation step. -/
def bingo_op_unlocked (card : BingoCard) : BingoOp → Bool
  | .unlock o now => (unlock_cells_for_ownership card o now).2
  | .reconcile omap now => (ensure_cells_for_card omap now card).2 != 0

/-- The timestamp an operation runs at. -/
def bingo_op_time : BingoOp → ℕ
  | .unlock _ now => now
  | .reconcile _ now => now

/-- A sequence of operations applied left to right. -/
def run_bingo_ops (card : BingoCard) (ops : List BingoOp) : BingoCard :=
  ops.foldl apply_bingo_op card

theorem unlock_cell_for_unlocked {c : BingoCell} (o : UserNFTOwnership) (now : ℕ)
    (hu : c.state = "unlocked") : unlock_cell_for o now c = c := by
  unfold unlock_cell_for
  rw [if_neg]
  simp [hu]

theorem ensure_cell_for_unlocked {c : BingoCell} (omap : ℕ → Option UserNFTOwnership)
    (now : ℕ) (hu : c.state = "unlocked") : ensure_cell_for omap now c = c := by
  unfold ensure_cell_for
  rw [if_neg]
  simp [hu]

theorem unlock_fst_completed_state (card : BingoCard) (o : UserNFTOwnership) (now : ℕ)
    {t : ℕ} (hc : card.completed_at = some t) :
    (unlock_cells_for_ownership card o now).1.completed_at = some t ∧
    (unlock_cells_for_ownership card o now).1.state = card.state := by
  unfold unlock_cells_for_ownership
  dsimp only
  rw [if_neg]
  · exact ⟨hc, rfl⟩
  · simp [hc]

theorem ensure_fst_completed_state (card : BingoCard) (omap : ℕ → Option UserNFTOwnership)
    (now : ℕ) {t : ℕ} (hc : card.completed_at = some t) :
    (ensure_cells_for_card omap now card).1.completed_at = some t ∧
    (ensure_cells_for_card omap now card).1.state = card.state := by
  unfold ensure_cells_for_card
  dsimp only
  split
  · exact ⟨hc, rfl⟩
  · rw [if_neg]
    · exact ⟨hc, rfl⟩
    · simp [hc]

theorem apply_bingo_op_completed_state (card : BingoCard) (op : BingoOp)
    {t : ℕ} (hc : card.completed_at = some t) :
    (apply_bingo_op card op).completed_at = some t ∧
    (apply_bingo_op card op).state = card.state := by
  cases op with
  | unlock o now => exact unlock_fst_completed_state card o now hc
  | reconcile omap now => exact ensure_fst_completed_state card omap now hc

theorem apply_bingo_op_cells_get (card : BingoCard) (op : BingoOp) (i : ℕ) (c : BingoCell)
    (hc : card.cells.get? i = some c) (hu : c.state = "unlocked") :
    (apply_bingo_op card op).cells.get? i = some c := by
  cases op with
  | unlock o now =>
    show (unlock_cells_for_ownership card o now).1.cells.get? i = some c
    rw [unlock_fst_cells, List.get?_map, hc]
    simp [unlock_cell_for_unlocked o now hu]
  | reconcile omap now =>
    show (ensure_cells_for_card omap now card).1.cells.get? i = some c
    unfold ensure_cells_for_card
    dsimp only
    split
    · exact hc
    · split
      · dsimp only
        rw [List.get?_map, hc]
        simp [ensure_cell_for_unlocked omap now hu]
      · dsimp only
        rw [List.get?_map, hc]
        simp [ensure_cell_for_unlocked omap now hu]

theorem unlock_completion_iff (card : BingoCard) (o : UserNFTOwnership) (now : ℕ)
    (h : card.completed_at = none) :
    ((unlock_cells_for_ownership card o now).1.completed_at ≠ none ↔
      ((unlock_cells_for_ownership card o now).2 = true ∧
       ((unlock_cells_for_ownership card o now).1.cells.all
         (fun c => c.state == "unlocked")) = true)) ∧
    ((unlock_cells_for_ownership card o now).1.completed_at ≠ none →
      (unlock_cells_for_ownership card o now).1.completed_at = some now ∧
      (unlock_cells_for_ownership card o now).1.state = "completed") := by
  unfold unlock_cells_for_ownership
  dsimp only
  split
  · rename_i hcond
    simp only [h, Option.isNone_none, Bool.and_true, Bool.true_and,
      Bool.and_eq_true] at hcond
    refine ⟨?_, fun _ => ⟨rfl, rfl⟩⟩
    constructor
    · intro _
      exact ⟨hcond.1, hcond.2⟩
    · intro _
      simp
  · rename_i hcond
    simp only [h, Option.isNone_none, Bool.and_true, Bool.true_and,
      Bool.and_eq_true, not_and] at hcond
    refine ⟨?_, fun hne => absurd h (by simpa using hne)⟩
    constructor
    · intro hne
      exact absurd h (by simpa using hne)
    · intro ⟨ha, hall⟩
      exact absurd (hcond ha) (by simp [hall])

theorem ensure_completion_iff (card : BingoCard) (omap : ℕ → Option UserNFTOwnership)
    (now : ℕ) (h : card.completed_at = none) :
    ((ensure_cells_for_card omap now card).1.completed_at ≠ none ↔
      (((ensure_cells_for_card omap now card).2 != 0) = true ∧
       ((ensure_cells_for_card omap now card).1.cells.all
         (fun c => c.state == "unlocked")) = true)) ∧
    ((ensure_cells_for_card omap now card).1.completed_at ≠ none →
      (ensure_cells_for_card omap now card).1.completed_at = some now ∧
      (ensure_cells_for_card omap now card).1.state = "completed") := by
  unfold ensure_cells_for_card
  dsimp only
  split
  · refine ⟨?_, fun hne => absurd h (by simpa using hne)⟩
    constructor
    · intro hne
      exact absurd h (by simpa using hne)
    · intro ⟨ha, _⟩
      simp at ha
  · split
    · rename_i hcond
      simp only [h, Option.isNone_none, Bool.and_true, Bool.true_and,
        Bool.and_eq_true] at hcond
      refine ⟨?_, fun _ => ⟨rfl, rfl⟩⟩
      constructor
      · intro _
        exact ⟨hcond.1, hcond.2⟩
      · intro _
        simp
    · rename_i hcond
      simp only [h, Option.isNone_none, Bool.and_true, Bool.true_and,
        Bool.and_eq_true, not_and] at hcond
      refine ⟨?_, fun hne => absurd h (by simpa using hne)⟩
      constructor
      · intro hne
        exact absurd h (by simpa using hne)
      · intro ⟨ha, hall⟩
        exact absurd (hcond ha) (by simp [hall])

theorem apply_bingo_op_completion_iff (card : BingoCard) (op : BingoOp)
    (h : card.completed_at = none) :
    ((apply_bingo_op card op).completed_at ≠ none ↔
      (bingo_op_unlocked card op = true ∧
       ((apply_bingo_op card op).cells.all (fun c => c.state == "unlocked")) = true)) ∧
    ((apply_bingo_op card op).completed_at ≠ none →
      (apply_bingo_op card op).completed_at = some (bingo_op_time op) ∧
      (apply_bingo_op card op).state = "completed") := by
  cases op with
  | unlock o now => exact unlock_completion_iff card o now h
  | reconcile omap now => exact ensure_completion_iff card omap now h

theorem run_bingo_ops_cells_get (ops : List BingoOp) :
    ∀ (card : BingoCard) (i : ℕ) (c : BingoCell),
      card.cells.get? i = some c → c.state = "unlocked" →
      (run_bingo_ops card ops).cells.get? i = some c := by
  induction ops with
  | nil => intro card i c hc _; exact hc
  | cons op t ih =>
    intro card i c hc hu
    exact ih (apply_bingo_op card op) i c (apply_bingo_op_cells_get card op i c hc hu) hu

theorem run_bingo_ops_completed (ops : List BingoOp) :
    ∀ (card : BingoCard) (t : ℕ), card.completed_at = some t →
      (run_bingo_ops card ops).completed_at = some t := by
  induction ops with
  | nil => intro card t hc; exact hc
  | cons op rest ih =>
    intro card t hc
    exact ih (apply_bingo_op card op) t (apply_bingo_op_completed_state card op hc).1

/-- C5 (amended): over any sequence of unlock and reconciliation
operations, cells only ever transition from locked to unlocked (an unlocked
cell is never modified again), completed_at once set is never cleared or
changed (and setting it also freezes the transition: a completed card keeps
its state), and a card's completed_at becomes set at exactly those steps
that unlock at least one cell, leave all cells unlocked and find
completed_at still unset, at which point state becomes completed and
completed_at records that step's time.  A card all of whose cells are
already unlocked when it is created is never marked completed, because no
later operation unlocks a cell on it. -/
theorem bingo_card_lifecycle_invariants :
    (∀ (card : BingoCard) (op : BingoOp) (i : ℕ) (c : BingoCell),
       card.cells.get? i = some c → c.state = "unlocked" →
       (apply_bingo_op card op).cells.get? i = some c) ∧
    (∀ (card : BingoCard) (ops : List BingoOp) (i : ℕ) (c : BingoCell),
       card.cells.get? i = some c → c.state = "unlocked" →
       (run_bingo_ops card ops).cells.get? i = some c) ∧
    (∀ (card : BingoCard) (ops : List BingoOp) (t : ℕ),
       card.completed_at = some t → (run_bingo_ops card ops).completed_at = some t) ∧
    (∀ (card : BingoCard) (op : BingoOp) (t : ℕ),
       card.completed_at = some t → (apply_bingo_op card op).state = card.state) ∧
    (∀ (card : BingoCard) (op : BingoOp), card.completed_at = none →
       ((apply_bingo_op card op).completed_at ≠ none ↔
         (bingo_op_unlocked card op = true ∧
          ((apply_bingo_op card op).cells.all (fun c => c.state == "unlocked")) = true))) ∧
    (∀ (card : BingoCard) (op : BingoOp), card.completed_at = none →
       (apply_bingo_op card op).completed_at ≠ none →
       (apply_bingo_op card op).completed_at = some (bingo_op_time op) ∧
       (apply_bingo_op card op).state = "completed") :=
  ⟨apply_bingo_op_cells_get,
   fun card ops i c hc hu => run_bingo_ops_cells_get ops card i c hc hu,
   fun card ops t hc => run_bingo_ops_completed ops card t hc,
   fun card op t hc => (apply_bingo_op_completed_state card op hc).2,
   fun card op h => (apply_bingo_op_completion_iff card op h).1,
   fun card op h => (apply_bingo_op_completion_iff card op h).2⟩

/-- A card one unlock away from completion, for the C5 witness: eight
unlocked cells and one locked cell targeting definition 3. -/
def c5_witness_card : BingoCard :=
  BingoCard.mk 7 0 none "active"
    ((List.range 8).map (fun i => BingoCell.mk i (i + 10) (some (i + 10)) (some i)
        "unlocked" (some 0)) ++
     [BingoCell.mk 8 3 none none "locked" none])

/-- C5 witness: unlocking the last missing definition completes the
concrete card at the operation's time. -/
theorem bingo_card_lifecycle_invariants_witness :
    c5_witness_card.completed_at = none ∧
    (apply_bingo_op c5_witness_card (.unlock (UserNFTOwnership.mk 5 7 3) 11)).completed_at ≠
      none ∧
    ((apply_bingo_op c5_witness_card (.unlock (UserNFTOwnership.mk 5 7 3) 11)).completed_at =
       some (bingo_op_time (.unlock (UserNFTOwnership.mk 5 7 3) 11)) ∧
     (apply_bingo_op c5_witness_card (.unlock (UserNFTOwnership.mk 5 7 3) 11)).state =
       "completed") :=
  ⟨rfl, by decide,
   bingo_card_lifecycle_invariants.2.2.2.2.2 c5_witness_card
     (.unlock (UserNFTOwnership.mk 5 7 3) 11) rfl (by decide)⟩

/-- The ownerships of a user who already owns every definition of the pool
1..9, for the C5 counterexample. -/
def c5_owns : List UserNFTOwnership :=
  [⟨1, 7, 1⟩, ⟨2, 7, 2⟩, ⟨3, 7, 3⟩, ⟨4, 7, 4⟩, ⟨5, 7, 5⟩, ⟨6, 7, 6⟩, ⟨7, 7, 7⟩,
   ⟨8, 7, 8⟩, ⟨9, 7, 9⟩]

/-- The card the generator produces for that user: every cell is created
already unlocked. -/
def c5_card : BingoCard :=
  (generate_for_user [1, 2, 3, 4, 5, 6, 7, 8, 9] c5_owns 7 9 [] [] 0 "active" c4_rng
      0).toOption.getD (BingoCard.mk 0 0 none "" [])

/-- C5 counterexample: a reachable card (generated for a user who already
owns all nine definitions) has all 9 cells unlocked but is not completed,
and stays active with completed_at unset even after a further unlock
operation; so the card's state does not become completed exactly when all 9
cells are unlocked. -/
theorem bingo_all_unlocked_card_never_completes :
    generate_for_user [1, 2, 3, 4, 5, 6, 7, 8, 9] c5_owns 7 9 [] [] 0 "active" c4_rng 0 =
      .ok c5_card ∧
    c5_card.cells.length = 9 ∧
    c5_card.cells.all (fun c => c.state == "unlocked") = true ∧
    c5_card.state = "active" ∧
    c5_card.completed_at = none ∧
    (run_bingo_ops c5_card [.unlock (UserNFTOwnership.mk 1 7 1) 3]).state = "active" ∧
    (run_bingo_ops c5_card [.unlock (UserNFTOwnership.mk 1 7 1) 3]).completed_at = none :=
  ⟨rfl, by decide, by decide, by decide, by decide, by decide, by decide⟩

/-!
The persisted draw result record and the tie-aware ranking helper
nictbw.workflows._rank_prize_draw_results_with_ties.
-/

/-- nictbw.models.prize_draw.PrizeDrawResult, restricted to the fields the
engine and the ranking helper read and write.  definition_id and
instance_id are the definition and instance references of the evaluated
NFT (instance_id nullable for legacy rows); scores and thresholds are
exact rationals. -/
structure PrizeDrawResult where
  id : ℕ
  draw_type_id : ℕ
  winning_number_id : Option ℕ
  user_id : ℕ
  definition_id : ℕ
  instance_id : Option ℕ
  draw_number : String
  similarity_score : Option ℚ
  draw_top_digits : Option (List Char)
  winning_top_digits : Option (List Char)
  threshold_used : Option ℚ
  outcome : String
  evaluated_at : ℕ
  deriving DecidableEq

/-- The sort key of the ranking helper: negated score (None mapped to 0 by
the or-default, though validation rules None out), evaluated_at with the
minimal datetime as default 0, id with default 0. -/
def rank_sort_key (r : PrizeDrawResult) : ℚ ×ₗ (ℕ ×ₗ ℕ) :=
  toLex (-(r.similarity_score.getD 0), toLex (r.evaluated_at, r.id))

/-- The ordering the helper sorts by: lexicographic comparison of the sort
keys, i.e. similarity score descending, then evaluated_at ascending, then
id ascending. -/
def rank_result_le (a b : PrizeDrawResult) : Prop :=
  rank_sort_key a ≤ rank_sort_key b

instance : DecidableRel rank_result_le := fun a b =>
  inferInstanceAs (Decidable (rank_sort_key a ≤ rank_sort_key b))

instance : IsTotal PrizeDrawResult rank_result_le :=
  ⟨fun a b => le_total (rank_sort_key a) (rank_sort_key b)⟩

instance : IsTrans PrizeDrawResult rank_result_le :=
  ⟨fun _ _ _ h1 h2 => le_trans h1 h2⟩

/-- Python sorted with the tuple key: a stable sort by rank_result_le, modelled by
insertion sort (stable sorting under a total preorder determines the output
uniquely). -/
def rank_sorted (results : List PrizeDrawResult) : List PrizeDrawResult :=
  List.insertionSort rank_result_le results

/-- The winner-collection loop of the ranking helper: fill up to limit
entries, remembering the last appended score as the cutoff, then keep
taking entries whose score equals the cutoff, stopping at the first that
differs. -/
def rank_loop (limit : ℕ) :
    List PrizeDrawResult → List PrizeDrawResult → Option ℚ → List PrizeDrawResult
  | [], winners, _ => winners
  | r :: rest, winners, cutoff =>
    match r.similarity_score with
    | none => rank_loop limit rest winners cutoff
    | some score =>
      if winners.isEmpty || winners.length < limit then
        rank_loop limit rest (winners ++ [r]) (some score)
      else if cutoff = some score then
        rank_loop limit rest (winners ++ [r]) cutoff
      else winners

/-- Whether the supplied limit is negative. -/
def limit_negative (limit : Option ℤ) : Bool :=
  match limit with
  | some l => decide (l < 0)
  | none => false

/-- nictbw.workflows._rank_prize_draw_results_with_ties. -/
def rank_prize_draw_results_with_ties (results : List PrizeDrawResult)
    (limit : Option ℤ) : Except Err (List PrizeDrawResult) :=
  if limit_negative limit then
    .error (.valueError "limit must be non-negative when provided")
  else if results.any (fun r => r.similarity_score.isNone) then
    .error (.valueError
      "Cannot rank prize draw results without similarity scores. Ensure a winning number is supplied before ranking.")
  else
    let sorted_results := rank_sorted results
    match limit with
    | none => .ok sorted_results
    | some l =>
      if l = 0 then .ok []
      else .ok (rank_loop l.toNat sorted_results [] none)

/-- Follows the words of the spec for the limited case: the top k of the
sorted list plus any further entries whose score equals the score of the
k-th entry (the cutoff); everything when fewer than k entries exist. -/
def rank_with_ties_cutoff_spec (k : ℕ) (S : List PrizeDrawResult) :
    List PrizeDrawResult :=
  if S.length ≤ k then S
  else S.take k ++ (S.drop k).takeWhile
    (fun r => r.similarity_score == ((S.get? (k - 1)).bind (fun x => x.similarity_score)))

theorem rank_loop_saturated (k : ℕ) :
    ∀ (rest winners : List PrizeDrawResult) (c : ℚ),
      (∀ r ∈ rest, r.similarity_score ≠ none) →
      winners ≠ [] → k ≤ winners.length →
      rank_loop k rest winners (some c) =
        winners ++ rest.takeWhile (fun r => r.similarity_score == some c) := by
  intro rest
  induction rest with
  | nil =>
    intro winners c _ _ _
    simp [rank_loop]
  | cons r t ih =>
    intro winners c hall hne hlen
    rw [rank_loop]
    cases hs : r.similarity_score with
    | none => exact absurd hs (hall r (List.mem_cons_self r t))
    | some s =>
      dsimp only
      rw [if_neg (by simp [List.isEmpty_iff, hne]; omega)]
      by_cases hcs : (some c : Option ℚ) = some s
      · rw [if_pos hcs]
        rw [ih (winners ++ [r]) c (fun x hx => hall x (List.mem_cons_of_mem _ hx))
          (by simp) (by simp; omega)]
        rw [List.takeWhile_cons, if_pos (by simp [hs]; simpa using hcs.symm)]
        simp
      · rw [if_neg hcs]
        rw [List.takeWhile_cons, if_neg (by simp [hs]; simpa using fun h => hcs (by rw [h]))]
        simp

theorem rank_loop_filling (k : ℕ) :
    ∀ (rest : List PrizeDrawResult) (m : ℕ) (winners : List PrizeDrawResult)
      (cutoff : Option ℚ),
      (∀ r ∈ rest, r.similarity_score ≠ none) →
      winners.length + m = k → 1 ≤ m →
      rank_loop k rest winners cutoff =
        (if rest.length ≤ m then winners ++ rest
         else winners ++ rest.take m ++ (rest.drop m).takeWhile
           (fun r => r.similarity_score ==
             ((rest.get? (m - 1)).bind (fun x => x.similarity_score)))) := by
  intro rest
  induction rest with
  | nil =>
    intro m winners cutoff _ _ _
    simp [rank_loop]
  | cons r t ih =>
    intro m winners cutoff hall hk hm
    have htall : ∀ x ∈ t, x.similarity_score ≠ none :=
      fun x hx => hall x (List.mem_cons_of_mem _ hx)
    rw [rank_loop]
    cases hs : r.similarity_score with
    | none => exact absurd hs (hall r (List.mem_cons_self r t))
    | some s =>
      dsimp only
      rw [if_pos (by simp; omega)]
      cases m with
      | zero => omega
      | succ m1 =>
        cases m1 with
        | zero =>
          rw [rank_loop_saturated k t (winners ++ [r]) s htall (by simp) (by simp; omega)]
          by_cases hlen : t.length = 0
          · rw [List.length_eq_zero.mp hlen]
            simp
          · rw [if_neg (by simp only [List.length_cons]; omega)]
            simp only [List.take_succ_cons, List.take_zero, List.drop_succ_cons,
              List.drop_zero, List.get?_cons_zero]
            simp [List.append_assoc, hs]
        | succ m2 =>
          rw [ih (m2 + 1) (winners ++ [r]) (some s) htall (by simp; omega) (by omega)]
          by_cases hlen : t.length ≤ m2 + 1
          · rw [if_pos hlen, if_pos (by simp; omega)]
            simp
          · rw [if_neg hlen, if_neg (by simp; omega)]
            simp only [List.take_succ_cons, List.drop_succ_cons, Nat.succ_sub_one,
              List.get?_cons_succ]
            simp [List.append_assoc]

theorem rank_sorted_all_some {results : List PrizeDrawResult}
    (h : ∀ r ∈ results, r.similarity_score ≠ none) :
    ∀ r ∈ rank_sorted results, r.similarity_score ≠ none := by
  intro r hr
  exact h r ((List.perm_insertionSort rank_result_le results).mem_iff.mp hr)

theorem rank_no_missing_scores {results : List PrizeDrawResult}
    (h : ∀ r ∈ results, r.similarity_score ≠ none) :
    (results.any (fun r => r.similarity_score.isNone)) = false := by
  rw [List.any_eq_false]
  intro r hr
  simpa using h r hr

theorem rank_result_le_iff (a b : PrizeDrawResult) :
    rank_result_le a b ↔
      (-(a.similarity_score.getD 0) < -(b.similarity_score.getD 0) ∨
       (-(a.similarity_score.getD 0) = -(b.similarity_score.getD 0) ∧
        (a.evaluated_at < b.evaluated_at ∨
         (a.evaluated_at = b.evaluated_at ∧ a.id ≤ b.id)))) := by
  unfold rank_result_le rank_sort_key
  rw [Prod.Lex.le_iff]
  constructor
  · rintro (h1 | ⟨h1, h2⟩)
    · exact Or.inl h1
    · rw [Prod.Lex.le_iff] at h2
      exact Or.inr ⟨h1, h2⟩
  · rintro (h1 | ⟨h1, h2⟩)
    · exact Or.inl h1
    · exact Or.inr ⟨h1, (Prod.Lex.le_iff _ _).mpr h2⟩

theorem rank_pos_limit_eq (results : List PrizeDrawResult) (l : ℤ) (hl : 0 < l)
    (h : ∀ r ∈ results, r.similarity_score ≠ none) :
    rank_prize_draw_results_with_ties results (some l) =
      .ok (rank_with_ties_cutoff_spec l.toNat (rank_sorted results)) := by
  rw [rank_prize_draw_results_with_ties]
  rw [if_neg (by simp [limit_negative]; omega)]
  rw [if_neg (by simp [rank_no_missing_scores h])]
  dsimp only
  rw [if_neg (by omega)]
  rw [rank_loop_filling l.toNat (rank_sorted results) l.toNat [] none
    (rank_sorted_all_some h) (by simp) (by omega)]
  rfl

def c8_top : PrizeDrawResult :=
  ⟨0, 1, some 1, 1, 1, some 1, "top", some (9 / 10), none, none, none, "pending", 0⟩

def c8_tie_a : PrizeDrawResult :=
  ⟨0, 1, some 1, 1, 2, some 1, "tie-a", some (8 / 10), none, none, none, "pending", 1⟩

def c8_tie_b : PrizeDrawResult :=
  ⟨0, 1, some 1, 1, 3, some 1, "tie-b", some (8 / 10), none, none, none, "pending", 2⟩

theorem c8_sorted_eq : rank_sorted [c8_tie_b, c8_tie_a, c8_top] = [c8_top, c8_tie_a, c8_tie_b] := by
  have hat : ¬ rank_result_le c8_tie_a c8_top := by
    rw [rank_result_le_iff]
    norm_num [c8_tie_a, c8_top]
  have hbt : ¬ rank_result_le c8_tie_b c8_top := by
    rw [rank_result_le_iff]
    norm_num [c8_tie_b, c8_top]
  have hba : ¬ rank_result_le c8_tie_b c8_tie_a := by
    rw [rank_result_le_iff]
    norm_num [c8_tie_b, c8_tie_a]
  simp only [rank_sorted, List.insertionSort, List.orderedInsert]
  rw [if_neg hat]
  simp only [List.orderedInsert]
  rw [if_neg hbt, if_neg hba]

theorem c8_example :
    rank_prize_draw_results_with_ties [c8_tie_b, c8_tie_a, c8_top] (some 2) =
      .ok [c8_top, c8_tie_a, c8_tie_b] := by
  rw [rank_pos_limit_eq [c8_tie_b, c8_tie_a, c8_top] 2 (by norm_num) (by decide)]
  rw [c8_sorted_eq]
  rw [rank_with_ties_cutoff_spec]
  rw [if_neg (by decide)]
  rw [show Int.toNat 2 = 2 from rfl]
  simp only [List.take_succ_cons, List.take_zero, List.drop_succ_cons, List.drop_zero,
    List.get?_cons_succ, List.get?_cons_zero, Option.some_bind, List.takeWhile]
  norm_num [c8_top, c8_tie_a, c8_tie_b]

/-- C8: rankWithTies orders by similarity score descending with ties broken
by evaluated_at ascending then id ascending (the sort relation is spelled
out), raises the ValidationError message of the source when a result lacks
a score, errors on a negative limit (that check coming first), returns the
empty list for limit 0, and for a positive limit returns the top limit
entries of the sorted list plus any further entries whose score equals the
cutoff (the score of the limit-th entry); in particular the scores
0.9, 0.8, 0.8 with limit 2 give all three entries back. -/
theorem rank_with_ties_spec :
    (∀ results : List PrizeDrawResult, (∀ r ∈ results, r.similarity_score ≠ none) →
      rank_prize_draw_results_with_ties results none = .ok (rank_sorted results) ∧
      List.Perm (rank_sorted results) results ∧
      List.Sorted rank_result_le (rank_sorted results)) ∧
    (∀ a b : PrizeDrawResult, rank_result_le a b ↔
      (-(a.similarity_score.getD 0) < -(b.similarity_score.getD 0) ∨
       (-(a.similarity_score.getD 0) = -(b.similarity_score.getD 0) ∧
        (a.evaluated_at < b.evaluated_at ∨
         (a.evaluated_at = b.evaluated_at ∧ a.id ≤ b.id))))) ∧
    (∀ (results : List PrizeDrawResult) (l : ℤ), l < 0 →
      rank_prize_draw_results_with_ties results (some l) =
        .error (.valueError "limit must be non-negative when provided")) ∧
    (∀ (results : List PrizeDrawResult) (limit : Option ℤ),
      limit_negative limit = false → (∃ r ∈ results, r.similarity_score = none) →
      rank_prize_draw_results_with_ties results limit =
        .error (.valueError
          "Cannot rank prize draw results without similarity scores. Ensure a winning number is supplied before ranking.")) ∧
    (∀ results : List PrizeDrawResult, (∀ r ∈ results, r.similarity_score ≠ none) →
      rank_prize_draw_results_with_ties results (some 0) = .ok []) ∧
    (∀ (results : List PrizeDrawResult) (l : ℤ), 0 < l →
      (∀ r ∈ results, r.similarity_score ≠ none) →
      rank_prize_draw_results_with_ties results (some l) =
        .ok (rank_with_ties_cutoff_spec l.toNat (rank_sorted results))) ∧
    rank_prize_draw_results_with_ties [c8_tie_b, c8_tie_a, c8_top] (some 2) =
      .ok [c8_top, c8_tie_a, c8_tie_b] := by
  refine ⟨?_, rank_result_le_iff, ?_, ?_, ?_, rank_pos_limit_eq, c8_example⟩
  · intro results h
    refine ⟨?_, List.perm_insertionSort rank_result_le results,
      List.sorted_insertionSort rank_result_le results⟩
    rw [rank_prize_draw_results_with_ties]
    rw [if_neg (by simp [limit_negative])]
    rw [if_neg (by simp [rank_no_missing_scores h])]
  · intro results l hl
    rw [rank_prize_draw_results_with_ties]
    rw [if_pos (by simp [limit_negative]; exact hl)]
  · intro results limit hneg ⟨r, hr, hscore⟩
    rw [rank_prize_draw_results_with_ties]
    rw [if_neg (by simp [hneg])]
    rw [if_pos (by rw [List.any_eq_true]; exact ⟨r, hr, by simp [hscore]⟩)]
  · intro results h
    rw [rank_prize_draw_results_with_ties]
    rw [if_neg (by simp [limit_negative])]
    rw [if_neg (by simp [rank_no_missing_scores h])]
    dsimp only
    rw [if_pos rfl]

/-- C8 witness: the negative-limit and zero-limit cases at concrete
inputs. -/
theorem rank_with_ties_spec_witness :
    (-1 : ℤ) < 0 ∧
    rank_prize_draw_results_with_ties [] (some (-1)) =
      .error (.valueError "limit must be non-negative when provided") ∧
    rank_prize_draw_results_with_ties [] (some 0) = .ok [] :=
  ⟨by norm_num, rank_with_ties_spec.2.2.1 [] (-1) (by norm_num),
   rank_with_ties_spec.2.2.2.2.1 [] (by simp)⟩

/-!
The prize-draw engine: nictbw.prize_draw.scoring (ScoringAlgorithm,
registry lookup) and nictbw.prize_draw.engine (PrizeDrawEngine.evaluate and
_upsert_result).  The SQLAlchemy session is modelled as the list of
persisted result rows plus the next autoincrement id; in-place ORM updates
become replacement of the first row matching the lookup predicate used to
find it.
-/

/-- The evaluated NFT instance (badge ownership), restricted to the fields
the engine reads; all are nullable before persistence, which the engine
validates. -/
structure NFTInstance where
  id : Option ℕ
  user_id : Option ℕ
  definition_id : Option ℕ
  nft_origin : Option String
  deriving DecidableEq

/-- nictbw.models.prize_draw.PrizeDrawType, restricted to the fields the
engine reads. -/
structure PrizeDrawType where
  id : Option ℕ
  algorithm_key : String
  default_threshold : Option ℚ
  deriving DecidableEq

/-- nictbw.models.prize_draw.PrizeDrawWinningNumber, restricted to the
fields the engine reads (a persisted row, so the id is present). -/
structure PrizeDrawWinningNumber where
  id : ℕ
  value : String
  deriving DecidableEq

/-- nictbw.prize_draw.scoring.ScoringAlgorithm: a registry key plus the
scorer callable. -/
structure ScoringAlgorithm where
  key : String
  scorer : String → String → Except Err ScoreComputation

/-- nictbw.prize_draw.scoring.ScoreEvaluation. -/
structure ScoreEvaluation where
  algorithm_key : String
  score : ℚ
  threshold : Option ℚ
  passed : Option Bool
  draw_top_digits : List Char
  winning_top_digits : List Char
  deriving DecidableEq

/-- ScoringAlgorithm.evaluate: run the scorer and classify against the
threshold (passed is None exactly when no threshold was supplied). -/
def ScoringAlgorithm.evaluate (alg : ScoringAlgorithm) (draw_number winning_number : String)
    (threshold : Option ℚ) : Except Err ScoreEvaluation :=
  (alg.scorer draw_number winning_number).map (fun computation =>
    { algorithm_key := alg.key, score := computation.score, threshold := threshold,
      passed := threshold.map (fun t => decide (computation.score ≥ t)),
      draw_top_digits := computation.draw_top_digits,
      winning_top_digits := computation.winning_top_digits })

/-- The get view of AlgorithmRegistry: the key-indexed dictionary of
registered algorithms (None models the KeyError lookup failure). -/
def AlgorithmRegistry : Type := String → Option ScoringAlgorithm

/-- The database rows the engine reads and writes, plus the autoincrement
counter assigned to inserted rows on flush. -/
structure SessionState where
  results : List PrizeDrawResult
  next_id : ℕ
  deriving DecidableEq

/-- nictbw.prize_draw.engine.PrizeDrawEvaluation. -/
structure PrizeDrawEvaluation where
  result : PrizeDrawResult
  draw_number : String
  threshold : Option ℚ
  similarity : Option ℚ
  deriving DecidableEq

/-- The row lookup for the evaluated instance and draw type (the primary
upsert key). -/
def result_pair_pred (inst_id dt_id : ℕ) (r : PrizeDrawResult) : Bool :=
  r.instance_id == some inst_id && r.draw_type_id == dt_id

/-- The fallback row lookup keyed by the instance's definition and the draw
type (the schema-compatible uniqueness on (nft_id, draw_type_id)). -/
def result_def_pred (def_id dt_id : ℕ) (r : PrizeDrawResult) : Bool :=
  r.definition_id == def_id && r.draw_type_id == dt_id

/-- Replace the first element satisfying p, modelling an in-place ORM
update of the row that find? returned. -/
def replace_first {α : Type} (p : α → Bool) (new : α) : List α → List α
  | [] => []
  | x :: xs => if p x then new :: xs else x :: replace_first p new xs

/-- The field assignments of the update branch of _upsert_result (the same
values the insert branch stores); the row id is untouched. -/
def apply_result_fields (r : PrizeDrawResult) (inst_id def_id user_id : ℕ)
    (wn_id : Option ℕ) (draw_number : String) (similarity_score : Option ℚ)
    (ddig wdig : Option (List Char)) (threshold_used : Option ℚ) (outcome : String)
    (evaluated_at : ℕ) : PrizeDrawResult :=
  { r with
    winning_number_id := wn_id, user_id := user_id, definition_id := def_id,
    instance_id := some inst_id, draw_number := draw_number,
    similarity_score := similarity_score, draw_top_digits := ddig,
    winning_top_digits := wdig, threshold_used := threshold_used,
    outcome := outcome, evaluated_at := evaluated_at }

/-- nictbw.prize_draw.engine.PrizeDrawEngine._upsert_result: reuse the row
for the instance, else fall back to the definition-keyed row (raising when
that row belongs to a different instance), else insert a new row. -/
def upsert_result (s : SessionState) (inst_id def_id user_id dt_id : ℕ)
    (wn_id : Option ℕ) (draw_number : String) (similarity_score : Option ℚ)
    (ddig wdig : Option (List Char)) (threshold_used : Option ℚ) (outcome : String)
    (evaluated_at : ℕ) : Except Err (SessionState × PrizeDrawResult) :=
  match s.results.find? (result_pair_pred inst_id dt_id) with
  | some r =>
    let updated := apply_result_fields r inst_id def_id user_id wn_id draw_number
      similarity_score ddig wdig threshold_used outcome evaluated_at
    .ok ({ s with
           results := replace_first (result_pair_pred inst_id dt_id) updated s.results },
         updated)
  | none =>
    match s.results.find? (result_def_pred def_id dt_id) with
    | some r =>
      if r.instance_id.isSome && r.instance_id != some inst_id then
        .error (.valueError
          "Cannot persist prize draw results for multiple NFT instances sharing the same definition with the current schema constraint (nft_id, draw_type_id). Migrate to an instance-based uniqueness constraint to evaluate all instances.")
      else
        let updated := apply_result_fields r inst_id def_id user_id wn_id draw_number
          similarity_score ddig wdig threshold_used outcome evaluated_at
        .ok ({ s with
               results := replace_first (result_def_pred def_id dt_id) updated s.results },
             updated)
    | none =>
      let new : PrizeDrawResult :=
        ⟨s.next_id, dt_id, wn_id, user_id, def_id, some inst_id, draw_number,
         similarity_score, ddig, wdig, threshold_used, outcome, evaluated_at⟩
      .ok (⟨s.results ++ [new], s.next_id + 1⟩, new)

/-- The threshold resolution of evaluate: the override when given, else the
draw type default. -/
def threshold_to_use (threshold default_threshold : Option ℚ) : Option ℚ :=
  match threshold with
  | some t => some t
  | none => default_threshold

/-- The scoring stage of evaluate: nothing when no winning number was
supplied (a pending pre-registration), else the registry lookup (KeyError
when absent) and the algorithm run, mapping passed True/False/None to the
win/lose/pending outcome. -/
def compute_scored (registry : AlgorithmRegistry) (algorithm_key : String)
    (draw_number : String) (winning_number : Option PrizeDrawWinningNumber)
    (threshold : Option ℚ) :
    Except Err (Option ℚ × Option (List Char) × Option (List Char) × String) :=
  match winning_number with
  | none => .ok (none, none, none, "pending")
  | some wn =>
    match registry algorithm_key with
    | none => .error (.keyError ("Unknown scoring algorithm " ++ algorithm_key))
    | some algorithm =>
      (algorithm.evaluate draw_number wn.value threshold).map (fun ev =>
        (some ev.score, some ev.draw_top_digits, some ev.winning_top_digits,
         match ev.passed with
         | some true => "win"
         | some false => "lose"
         | _ => "pending"))

namespace PrizeDrawEngine

/-- nictbw.prize_draw.engine.PrizeDrawEngine.evaluate: validate the
instance and draw type, derive the draw number, resolve the threshold,
score when a winning number is supplied, and upsert the single result row
for the (instance, draw type) pair. -/
def evaluate (s : SessionState) (registry : AlgorithmRegistry)
    (nft_instance : NFTInstance) (draw_type : PrizeDrawType)
    (winning_number : Option PrizeDrawWinningNumber) (threshold : Option ℚ)
    (now : ℕ) : Except Err (SessionState × PrizeDrawEvaluation) :=
  match nft_instance.id, draw_type.id, nft_instance.user_id,
      nft_instance.definition_id, nft_instance.nft_origin with
  | none, _, _, _, _ =>
    .error (.valueError "NFT instance must be persisted before running a prize draw")
  | some _, none, _, _, _ =>
    .error (.valueError "Draw type must be persisted before running a prize draw")
  | some _, some _, none, _, _ =>
    .error (.valueError "NFT instance must have a user_id")
  | some _, some _, some _, none, _ =>
    .error (.valueError "NFT instance must have a definition_id")
  | some _, some _, some _, some _, none =>
    .error (.valueError "NFT instance must have an nft_origin before running a prize draw")
  | some inst_id, some dt_id, some user_id, some def_id, some origin =>
    (derive_draw_number (.str origin)).bind (fun draw_number =>
      let tu := threshold_to_use threshold draw_type.default_threshold
      (compute_scored registry draw_type.algorithm_key draw_number winning_number
          tu).bind (fun scored =>
        (upsert_result s inst_id def_id user_id dt_id
            (winning_number.map (fun wn => wn.id)) draw_number scored.1 scored.2.1
            scored.2.2.1 tu scored.2.2.2 now).map (fun res =>
          (res.1, ⟨res.2, draw_number, tu, scored.1⟩))))

end PrizeDrawEngine

/-- A sequence of evaluate calls for one (instance, draw type) pair, each
with its own winning number, threshold override and time; a raising call
leaves the session unchanged (the engine raises before mutating). -/
def evaluate_calls (registry : AlgorithmRegistry) (nft_instance : NFTInstance)
    (draw_type : PrizeDrawType)
    (calls : List (Option PrizeDrawWinningNumber × Option ℚ × ℕ))
    (s : SessionState) : SessionState :=
  calls.foldl (fun st c =>
    match PrizeDrawEngine.evaluate st registry nft_instance draw_type c.1 c.2.1 c.2.2 with
    | .ok res => res.1
    | .error _ => st) s

/-- The number of live rows for one (instance, draw type) pair. -/
def count_pair (s : SessionState) (inst_id dt_id : ℕ) : ℕ :=
  (s.results.filter (result_pair_pred inst_id dt_id)).length

theorem replace_first_length {α : Type} (p : α → Bool) (new : α) :
    ∀ l : List α, (replace_first p new l).length = l.length := by
  intro l
  induction l with
  | nil => rfl
  | cons x xs ih =>
    rw [replace_first]
    split
    · simp
    · simp [ih]

theorem find?_replace_first_self {α : Type} (p : α → Bool) (new : α) (hnew : p new = true) :
    ∀ l : List α, (l.find? p).isSome → (replace_first p new l).find? p = some new := by
  intro l
  induction l with
  | nil => intro h; simp [List.find?] at h
  | cons x xs ih =>
    intro h
    rw [replace_first]
    by_cases hx : p x = true
    · rw [if_pos hx]
      simp [List.find?, hnew]
    · rw [if_neg hx]
      rw [List.find?_cons_of_neg _ (by simp [hx])]
      rw [List.find?_cons_of_neg _ (by simp [hx])] at h
      exact ih h

theorem find?_replace_first_other {α : Type} (p q : α → Bool) (new : α)
    (hnew : p new = true) :
    ∀ l : List α, l.find? p = none → (l.find? q).isSome →
      (replace_first q new l).find? p = some new := by
  intro l
  induction l with
  | nil => intro _ h; simp [List.find?] at h
  | cons x xs ih =>
    intro hp hq
    have hpx : p x = false := by
      by_contra hc
      rw [List.find?_cons_of_pos _ (by simpa using hc)] at hp
      cases hp
    rw [List.find?_cons_of_neg _ (by simp [hpx])] at hp
    rw [replace_first]
    by_cases hx : q x = true
    · rw [if_pos hx]
      simp [List.find?, hnew]
    · rw [if_neg hx]
      rw [List.find?_cons_of_neg _ (by simp [hpx])]
      rw [List.find?_cons_of_neg _ (by simp [hx])] at hq
      exact ih hp hq

theorem find?_append_of_none {α : Type} (p : α → Bool) (l2 : List α) :
    ∀ l : List α, l.find? p = none → (l ++ l2).find? p = l2.find? p := by
  intro l
  induction l with
  | nil => intro _; rfl
  | cons x xs ih =>
    intro hp
    have hpx : p x = false := by
      by_contra hc
      rw [List.find?_cons_of_pos _ (by simpa using hc)] at hp
      cases hp
    rw [List.find?_cons_of_neg _ (by simp [hpx])] at hp
    rw [List.cons_append, List.find?_cons_of_neg _ (by simp [hpx])]
    exact ih hp

theorem filter_length_replace_first_found {α : Type} (p : α → Bool) (new : α)
    (hnew : p new = true) :
    ∀ l : List α, (l.find? p).isSome →
      ((replace_first p new l).filter p).length = (l.filter p).length := by
  intro l
  induction l with
  | nil => intro h; simp [List.find?] at h
  | cons x xs ih =>
    intro h
    rw [replace_first]
    by_cases hx : p x = true
    · rw [if_pos hx]
      simp [List.filter_cons, hx, hnew]
    · rw [if_neg hx]
      rw [List.find?_cons_of_neg _ (by simp [hx])] at h
      simp only [List.filter_cons, hx, if_neg]
      simp [hx, ih h]

theorem filter_length_replace_first_new {α : Type} (p q : α → Bool) (new : α)
    (hnew : p new = true) :
    ∀ l : List α, l.find? p = none → (l.find? q).isSome →
      ((replace_first q new l).filter p).length = (l.filter p).length + 1 := by
  intro l
  induction l with
  | nil => intro _ h; simp [List.find?] at h
  | cons x xs ih =>
    intro hp hq
    have hpx : p x = false := by
      by_contra hc
      rw [List.find?_cons_of_pos _ (by simpa using hc)] at hp
      cases hp
    rw [List.find?_cons_of_neg _ (by simp [hpx])] at hp
    rw [replace_first]
    by_cases hx : q x = true
    · rw [if_pos hx]
      have : xs.filter p = [] := List.filter_eq_nil.mpr (by
        intro a ha
        have := List.find?_eq_none.mp hp a ha
        simpa using this)
      simp [List.filter_cons, hpx, hnew, this]
    · rw [if_neg hx]
      rw [List.find?_cons_of_neg _ (by simp [hx])] at hq
      simp [List.filter_cons, hpx, ih hp hq]

theorem filter_nil_of_find?_none {α : Type} (p : α → Bool) (l : List α)
    (hp : l.find? p = none) : l.filter p = [] :=
  List.filter_eq_nil.mpr (by
    intro a ha
    have := List.find?_eq_none.mp hp a ha
    simpa using this)

theorem count_pos_of_find? {α : Type} (p : α → Bool) (l : List α) {r : α}
    (h : l.find? p = some r) : 0 < (l.filter p).length := by
  have hmem := List.mem_of_find?_eq_some h
  have hp := List.find?_some h
  have : r ∈ l.filter p := List.mem_filter.mpr ⟨hmem, hp⟩
  exact List.length_pos.mpr (fun hnil => by simp [hnil] at this)

theorem result_pair_pred_apply_fields (r : PrizeDrawResult) (inst_id def_id user_id : ℕ)
    (wn_id : Option ℕ) (dn : String) (sim : Option ℚ) (ddig wdig : Option (List Char))
    (tu : Option ℚ) (outcome : String) (now : ℕ) (hdt : r.draw_type_id = dt_id) :
    result_pair_pred inst_id dt_id
      (apply_result_fields r inst_id def_id user_id wn_id dn sim ddig wdig tu outcome now) =
      true := by
  simp [result_pair_pred, apply_result_fields, hdt]

theorem upsert_result_ok (s : SessionState) (inst_id def_id user_id dt_id : ℕ)
    (wn_id : Option ℕ) (dn : String) (sim : Option ℚ) (ddig wdig : Option (List Char))
    (tu : Option ℚ) (outcome : String) (now : ℕ) {s2 : SessionState} {r2 : PrizeDrawResult}
    (h : upsert_result s inst_id def_id user_id dt_id wn_id dn sim ddig wdig tu outcome now =
      .ok (s2, r2)) :
    r2.outcome = outcome ∧ r2.similarity_score = sim ∧ r2.draw_top_digits = ddig ∧
    r2.winning_top_digits = wdig ∧ r2.winning_number_id = wn_id ∧
    s2.results.find? (result_pair_pred inst_id dt_id) = some r2 ∧
    (count_pair s inst_id dt_id ≤ 1 → count_pair s2 inst_id dt_id = 1) ∧
    (∀ r0, s.results.find? (result_pair_pred inst_id dt_id) = some r0 →
       s2.results.length = s.results.length ∧ r2.id = r0.id) := by
  unfold upsert_result at h
  cases hf1 : s.results.find? (result_pair_pred inst_id dt_id) with
  | some r =>
    rw [hf1] at h
    dsimp only at h
    rw [Except.ok.injEq, Prod.mk.injEq] at h
    obtain ⟨hs2, hr2⟩ := h
    have hdt : r.draw_type_id = dt_id := by
      have := List.find?_some hf1
      simp [result_pair_pred] at this
      exact this.2
    have hpred := result_pair_pred_apply_fields r inst_id def_id user_id wn_id dn sim
      ddig wdig tu outcome now hdt
    subst hs2
    subst hr2
    refine ⟨rfl, rfl, rfl, rfl, rfl, ?_, ?_, ?_⟩
    · exact find?_replace_first_self _ _ hpred s.results (by rw [hf1]; rfl)
    · intro hcount
      have hpres := filter_length_replace_first_found _ _ hpred s.results (by rw [hf1]; rfl)
      have hpos := count_pos_of_find? _ _ hf1
      unfold count_pair at hcount ⊢
      dsimp only
      omega
    · intro r0 hr0
      rw [Option.some.injEq] at hr0
      subst hr0
      exact ⟨replace_first_length _ _ _, rfl⟩
  | none =>
    rw [hf1] at h
    dsimp only at h
    cases hf2 : s.results.find? (result_def_pred def_id dt_id) with
    | some r =>
      rw [hf2] at h
      dsimp only at h
      split at h
      · cases h
      · rw [Except.ok.injEq, Prod.mk.injEq] at h
        obtain ⟨hs2, hr2⟩ := h
        have hdt : r.draw_type_id = dt_id := by
          have := List.find?_some hf2
          simp [result_def_pred] at this
          exact this.2
        have hpred := result_pair_pred_apply_fields r inst_id def_id user_id wn_id dn sim
          ddig wdig tu outcome now hdt
        subst hs2
        subst hr2
        refine ⟨rfl, rfl, rfl, rfl, rfl, ?_, ?_, ?_⟩
        · exact find?_replace_first_other _ _ _ hpred s.results hf1 (by rw [hf2]; rfl)
        · intro hcount
          have := filter_length_replace_first_new _ _ _ hpred s.results hf1
            (by rw [hf2]; rfl)
          unfold count_pair
          dsimp only
          rw [this]
          rw [filter_nil_of_find?_none _ _ hf1]
          rfl
        · intro r0 hr0
          cases hr0
    | none =>
      rw [hf2] at h
      dsimp only at h
      rw [Except.ok.injEq, Prod.mk.injEq] at h
      obtain ⟨hs2, hr2⟩ := h
      subst hs2
      subst hr2
      have hprednew : result_pair_pred inst_id dt_id
          ⟨s.next_id, dt_id, wn_id, user_id, def_id, some inst_id, dn, sim, ddig, wdig,
           tu, outcome, now⟩ = true := by
        simp [result_pair_pred]
      refine ⟨rfl, rfl, rfl, rfl, rfl, ?_, ?_, ?_⟩
      · dsimp only
        rw [find?_append_of_none _ _ _ hf1]
        rw [List.find?_cons_of_pos _ hprednew]
      · intro hcount
        unfold count_pair
        dsimp only
        rw [List.filter_append]
        rw [filter_nil_of_find?_none _ _ hf1]
        simp [hprednew]
      · intro r0 hr0
        cases hr0

theorem evaluate_eq (s : SessionState) (registry : AlgorithmRegistry)
    (inst : NFTInstance) (dt : PrizeDrawType) (wn : Option PrizeDrawWinningNumber)
    (th : Option ℚ) (now : ℕ) {inst_id dt_id user_id def_id : ℕ} {origin dn : String}
    (hid : inst.id = some inst_id) (hdt : dt.id = some dt_id)
    (huid : inst.user_id = some user_id) (hdef : inst.definition_id = some def_id)
    (horig : inst.nft_origin = some origin)
    (hderive : derive_draw_number (.str origin) = .ok dn) :
    PrizeDrawEngine.evaluate s registry inst dt wn th now =
      (compute_scored registry dt.algorithm_key dn wn
          (threshold_to_use th dt.default_threshold)).bind (fun scored =>
        (upsert_result s inst_id def_id user_id dt_id (wn.map (fun w => w.id)) dn
            scored.1 scored.2.1 scored.2.2.1 (threshold_to_use th dt.default_threshold)
            scored.2.2.2 now).map (fun res =>
          (res.1, ⟨res.2, dn, threshold_to_use th dt.default_threshold, scored.1⟩))) := by
  unfold PrizeDrawEngine.evaluate
  rw [hid, hdt, huid, hdef, horig]
  dsimp only
  rw [hderive]
  rfl

theorem upsert_result_found (s : SessionState) (inst_id def_id user_id dt_id : ℕ)
    (wn_id : Option ℕ) (dn : String) (sim : Option ℚ) (ddig wdig : Option (List Char))
    (tu : Option ℚ) (outcome : String) (now : ℕ) {r : PrizeDrawResult}
    (hfind : s.results.find? (result_pair_pred inst_id dt_id) = some r) :
    upsert_result s inst_id def_id user_id dt_id wn_id dn sim ddig wdig tu outcome now =
      .ok ({ s with
             results := replace_first (result_pair_pred inst_id dt_id)
               (apply_result_fields r inst_id def_id user_id wn_id dn sim ddig wdig tu
                 outcome now) s.results },
           apply_result_fields r inst_id def_id user_id wn_id dn sim ddig wdig tu
             outcome now) := by
  unfold upsert_result
  rw [hfind]

theorem upsert_result_conflict (s : SessionState) (inst_id def_id user_id dt_id : ℕ)
    (wn_id : Option ℕ) (dn : String) (sim : Option ℚ) (ddig wdig : Option (List Char))
    (tu : Option ℚ) (outcome : String) (now : ℕ) {r : PrizeDrawResult} {j : ℕ}
    (hno : s.results.find? (result_pair_pred inst_id dt_id) = none)
    (hdef : s.results.find? (result_def_pred def_id dt_id) = some r)
    (hrj : r.instance_id = some j) (hne : j ≠ inst_id) :
    upsert_result s inst_id def_id user_id dt_id wn_id dn sim ddig wdig tu outcome now =
      .error (.valueError
        "Cannot persist prize draw results for multiple NFT instances sharing the same definition with the current schema constraint (nft_id, draw_type_id). Migrate to an instance-based uniqueness constraint to evaluate all instances.") := by
  unfold upsert_result
  rw [hno, hdef]
  dsimp only
  rw [if_pos]
  simp [hrj, hne]

/-- C2: for a persisted instance and draw type (ids, user, definition and a
derivable origin present), evaluate with no winning number stores and
returns a result with outcome pending and a null similarity score; any
successful evaluate leaves exactly one result row for the (instance, draw
type) pair when at most one existed, updating an existing row in place
(same row id, no growth) rather than inserting a duplicate; and over any
sequence of evaluate calls on the pair at most one row ever exists. -/
theorem evaluate_pending_and_unique (registry : AlgorithmRegistry) (inst : NFTInstance)
    (dt : PrizeDrawType) (inst_id dt_id user_id def_id : ℕ) (origin dn : String)
    (hid : inst.id = some inst_id) (hdt : dt.id = some dt_id)
    (huid : inst.user_id = some user_id) (hdef : inst.definition_id = some def_id)
    (horig : inst.nft_origin = some origin)
    (hderive : derive_draw_number (.str origin) = .ok dn) :
    (∀ (s : SessionState) (th : Option ℚ) (now : ℕ) (s2 : SessionState)
       (ev : PrizeDrawEvaluation),
       PrizeDrawEngine.evaluate s registry inst dt none th now = .ok (s2, ev) →
       ev.result.outcome = "pending" ∧ ev.result.similarity_score = none ∧
       ev.similarity = none ∧
       s2.results.find? (result_pair_pred inst_id dt_id) = some ev.result) ∧
    (∀ (s : SessionState) (wn : Option PrizeDrawWinningNumber) (th : Option ℚ) (now : ℕ)
       (s2 : SessionState) (ev : PrizeDrawEvaluation),
       count_pair s inst_id dt_id ≤ 1 →
       PrizeDrawEngine.evaluate s registry inst dt wn th now = .ok (s2, ev) →
       count_pair s2 inst_id dt_id = 1 ∧
       (∀ r0, s.results.find? (result_pair_pred inst_id dt_id) = some r0 →
          s2.results.length = s.results.length ∧ ev.result.id = r0.id)) ∧
    (∀ (s : SessionState)
       (calls : List (Option PrizeDrawWinningNumber × Option ℚ × ℕ)),
       count_pair s inst_id dt_id ≤ 1 →
       count_pair (evaluate_calls registry inst dt calls s) inst_id dt_id ≤ 1) := by
  have hmain : ∀ (s : SessionState) (wn : Option PrizeDrawWinningNumber) (th : Option ℚ)
      (now : ℕ) (s2 : SessionState) (ev : PrizeDrawEvaluation),
      PrizeDrawEngine.evaluate s registry inst dt wn th now = .ok (s2, ev) →
      ∃ scored, compute_scored registry dt.algorithm_key dn wn
          (threshold_to_use th dt.default_threshold) = .ok scored ∧
        upsert_result s inst_id def_id user_id dt_id (wn.map (fun w => w.id)) dn
          scored.1 scored.2.1 scored.2.2.1 (threshold_to_use th dt.default_threshold)
          scored.2.2.2 now = .ok (s2, ev.result) ∧
        ev.similarity = scored.1 := by
    intro s wn th now s2 ev h
    rw [evaluate_eq s registry inst dt wn th now hid hdt huid hdef horig hderive] at h
    cases hsc : compute_scored registry dt.algorithm_key dn wn
        (threshold_to_use th dt.default_threshold) with
    | error e =>
      rw [hsc] at h
      cases h
    | ok scored =>
      rw [hsc] at h
      dsimp only [Except.bind] at h
      cases hup : upsert_result s inst_id def_id user_id dt_id
          (wn.map (fun w => w.id)) dn scored.1 scored.2.1 scored.2.2.1
          (threshold_to_use th dt.default_threshold) scored.2.2.2 now with
      | error e =>
        rw [hup] at h
        cases h
      | ok res =>
        rw [hup] at h
        dsimp only [Except.map] at h
        rw [Except.ok.injEq, Prod.mk.injEq] at h
        obtain ⟨hs2, hev⟩ := h
        subst hs2
        refine ⟨scored, rfl, ?_, ?_⟩
        · rw [← hev]
          exact hup
        · rw [← hev]
  have hpart2 : ∀ (s : SessionState) (wn : Option PrizeDrawWinningNumber) (th : Option ℚ)
      (now : ℕ) (s2 : SessionState) (ev : PrizeDrawEvaluation),
      count_pair s inst_id dt_id ≤ 1 →
      PrizeDrawEngine.evaluate s registry inst dt wn th now = .ok (s2, ev) →
      count_pair s2 inst_id dt_id = 1 ∧
      (∀ r0, s.results.find? (result_pair_pred inst_id dt_id) = some r0 →
         s2.results.length = s.results.length ∧ ev.result.id = r0.id) := by
    intro s wn th now s2 ev hcount h
    obtain ⟨scored, hsc, hup, hsim⟩ := hmain s wn th now s2 ev h
    obtain ⟨_, _, _, _, _, _, hcnt, hplace⟩ :=
      upsert_result_ok s inst_id def_id user_id dt_id _ dn _ _ _ _ _ now hup
    exact ⟨hcnt hcount, hplace⟩
  refine ⟨?_, hpart2, ?_⟩
  · intro s th now s2 ev h
    obtain ⟨scored, hsc, hup, hsim⟩ := hmain s none th now s2 ev h
    have hscored : scored = (none, none, none, "pending") := by
      rw [compute_scored] at hsc
      cases hsc
      rfl
    subst hscored
    obtain ⟨hout, hsim2, _, _, _, hfind, _, _⟩ :=
      upsert_result_ok s inst_id def_id user_id dt_id _ dn _ _ _ _ _ now hup
    exact ⟨hout, hsim2, hsim, hfind⟩
  · intro s calls
    induction calls generalizing s with
    | nil => intro h; exact h
    | cons c rest ih =>
      intro hcount
      show count_pair ((c :: rest).foldl _ s) inst_id dt_id ≤ 1
      rw [List.foldl_cons]
      cases heval : PrizeDrawEngine.evaluate s registry inst dt c.1 c.2.1 c.2.2 with
      | error e =>
        dsimp only
        exact ih s hcount
      | ok res =>
        dsimp only
        have h1 := (hpart2 s c.1 c.2.1 c.2.2 res.1 res.2 hcount (by rw [heval])).1
        exact ih res.1 (by omega)

/-- C2 witness: a fresh store, a persisted instance with origin ABC and no
winning number; evaluate stores and returns the pending row. -/
theorem evaluate_pending_and_unique_witness :
    PrizeDrawEngine.evaluate ⟨[], 0⟩ (fun _ => none)
        ⟨some 1, some 3, some 2, some "ABC"⟩ ⟨some 4, "alg", none⟩ none none 0 =
      .ok (⟨[⟨0, 4, none, 3, 2, some 1, "abc", none, none, none, none, "pending", 0⟩], 1⟩,
           ⟨⟨0, 4, none, 3, 2, some 1, "abc", none, none, none, none, "pending", 0⟩,
            "abc", none, none⟩) ∧
    (⟨⟨0, 4, none, 3, 2, some 1, "abc", none, none, none, none, "pending", 0⟩,
       "abc", none, none⟩ : PrizeDrawEvaluation).result.outcome = "pending" ∧
    (⟨⟨0, 4, none, 3, 2, some 1, "abc", none, none, none, none, "pending", 0⟩,
       "abc", none, none⟩ : PrizeDrawEvaluation).result.similarity_score = none ∧
    (⟨⟨0, 4, none, 3, 2, some 1, "abc", none, none, none, none, "pending", 0⟩,
       "abc", none, none⟩ : PrizeDrawEvaluation).similarity = none ∧
    (⟨[⟨0, 4, none, 3, 2, some 1, "abc", none, none, none, none, "pending", 0⟩], 1⟩ :
        SessionState).results.find? (result_pair_pred 1 4) =
      some (⟨⟨0, 4, none, 3, 2, some 1, "abc", none, none, none, none, "pending", 0⟩,
        "abc", none, none⟩ : PrizeDrawEvaluation).result :=
  ⟨rfl, by
    have h := (evaluate_pending_and_unique (fun _ => none)
      ⟨some 1, some 3, some 2, some "ABC"⟩ ⟨some 4, "alg", none⟩ 1 4 3 2 "ABC" "abc"
      rfl rfl rfl rfl rfl rfl).1 ⟨[], 0⟩ none 0
      ⟨[⟨0, 4, none, 3, 2, some 1, "abc", none, none, none, none, "pending", 0⟩], 1⟩
      ⟨⟨0, 4, none, 3, 2, some 1, "abc", none, none, none, none, "pending", 0⟩,
       "abc", none, none⟩ rfl
    exact h⟩

/-- C10: re-running evaluate with no winning number on an instance whose
stored result already carries a win or lose outcome overwrites that result
in place back to outcome pending, clearing its similarity score, display
digits and winning-number reference, keeping the same row id and inserting
no new row. -/
theorem evaluate_reverts_scored_result_to_pending (registry : AlgorithmRegistry)
    (inst : NFTInstance) (dt : PrizeDrawType) (inst_id dt_id user_id def_id : ℕ)
    (origin dn : String)
    (hid : inst.id = some inst_id) (hdt : dt.id = some dt_id)
    (huid : inst.user_id = some user_id) (hdef : inst.definition_id = some def_id)
    (horig : inst.nft_origin = some origin)
    (hderive : derive_draw_number (.str origin) = .ok dn)
    (s : SessionState) (th : Option ℚ) (now : ℕ) (r : PrizeDrawResult)
    (hfind : s.results.find? (result_pair_pred inst_id dt_id) = some r)
    (hwl : r.outcome = "win" ∨ r.outcome = "lose") :
    PrizeDrawEngine.evaluate s registry inst dt none th now =
      .ok ({ s with
             results := replace_first (result_pair_pred inst_id dt_id)
               (apply_result_fields r inst_id def_id user_id none dn none none none
                 (threshold_to_use th dt.default_threshold) "pending" now) s.results },
           ⟨apply_result_fields r inst_id def_id user_id none dn none none none
              (threshold_to_use th dt.default_threshold) "pending" now, dn,
            threshold_to_use th dt.default_threshold, none⟩) ∧
    (apply_result_fields r inst_id def_id user_id none dn none none none
      (threshold_to_use th dt.default_threshold) "pending" now).outcome = "pending" ∧
    (apply_result_fields r inst_id def_id user_id none dn none none none
      (threshold_to_use th dt.default_threshold) "pending" now).similarity_score = none ∧
    (apply_result_fields r inst_id def_id user_id none dn none none none
      (threshold_to_use th dt.default_threshold) "pending" now).draw_top_digits = none ∧
    (apply_result_fields r inst_id def_id user_id none dn none none none
      (threshold_to_use th dt.default_threshold) "pending" now).winning_top_digits = none ∧
    (apply_result_fields r inst_id def_id user_id none dn none none none
      (threshold_to_use th dt.default_threshold) "pending" now).winning_number_id = none ∧
    (apply_result_fields r inst_id def_id user_id none dn none none none
      (threshold_to_use th dt.default_threshold) "pending" now).id = r.id ∧
    (replace_first (result_pair_pred inst_id dt_id)
      (apply_result_fields r inst_id def_id user_id none dn none none none
        (threshold_to_use th dt.default_threshold) "pending" now) s.results).length =
      s.results.length := by
  refine ⟨?_, rfl, rfl, rfl, rfl, rfl, rfl, replace_first_length _ _ _⟩
  rw [evaluate_eq s registry inst dt none th now hid hdt huid hdef horig hderive]
  dsimp only [compute_scored, Except.bind, Option.map]
  rw [upsert_result_found s inst_id def_id user_id dt_id none dn none none none _
    "pending" now hfind]
  rfl

/-- C10 witness: a store holding a win row for the pair; re-evaluation with
no winning number rewrites it to pending in place. -/
theorem evaluate_reverts_scored_result_to_pending_witness :
    (⟨[⟨5, 4, some 9, 3, 2, some 1, "abc", some (1 / 2), none, none, none, "win", 7⟩],
       6⟩ : SessionState).results.find? (result_pair_pred 1 4) =
      some ⟨5, 4, some 9, 3, 2, some 1, "abc", some (1 / 2), none, none, none, "win", 7⟩ ∧
    (PrizeDrawEngine.evaluate
        ⟨[⟨5, 4, some 9, 3, 2, some 1, "abc", some (1 / 2), none, none, none, "win", 7⟩],
         6⟩ (fun _ => none) ⟨some 1, some 3, some 2, some "ABC"⟩ ⟨some 4, "alg", none⟩
        none none 8 =
      .ok ({ results := replace_first (result_pair_pred 1 4)
               (apply_result_fields
                 ⟨5, 4, some 9, 3, 2, some 1, "abc", some (1 / 2), none, none, none,
                  "win", 7⟩ 1 2 3 none "abc" none none none
                 (threshold_to_use none none) "pending" 8)
               [⟨5, 4, some 9, 3, 2, some 1, "abc", some (1 / 2), none, none, none,
                 "win", 7⟩],
             next_id := 6 },
           ⟨apply_result_fields
              ⟨5, 4, some 9, 3, 2, some 1, "abc", some (1 / 2), none, none, none,
               "win", 7⟩ 1 2 3 none "abc" none none none
              (threshold_to_use none none) "pending" 8, "abc",
            threshold_to_use none none, none⟩)) ∧
    (apply_result_fields
      ⟨5, 4, some 9, 3, 2, some 1, "abc", some (1 / 2), none, none, none, "win", 7⟩
      1 2 3 none "abc" none none none (threshold_to_use none none) "pending" 8).outcome =
      "pending" ∧
    (apply_result_fields
      ⟨5, 4, some 9, 3, 2, some 1, "abc", some (1 / 2), none, none, none, "win", 7⟩
      1 2 3 none "abc" none none none (threshold_to_use none none) "pending" 8).id = 5 :=
  ⟨rfl,
   (evaluate_reverts_scored_result_to_pending (fun _ => none)
      ⟨some 1, some 3, some 2, some "ABC"⟩ ⟨some 4, "alg", none⟩ 1 4 3 2 "ABC" "abc"
      rfl rfl rfl rfl rfl rfl
      ⟨[⟨5, 4, some 9, 3, 2, some 1, "abc", some (1 / 2), none, none, none, "win", 7⟩], 6⟩
      none 8
      ⟨5, 4, some 9, 3, 2, some 1, "abc", some (1 / 2), none, none, none, "win", 7⟩
      rfl (Or.inl rfl)).1,
   rfl, rfl⟩

/-- C3: when the store has no row for the evaluated instance but the
definition-keyed lookup finds a row belonging to a different instance
(two ownerships sharing one definition under the definition-keyed
uniqueness), evaluate raises the ConflictError of the source instead of
overwriting, and the stored state - including the first ownership's
result row - is left unchanged. -/
theorem evaluate_conflicting_definition_raises (registry : AlgorithmRegistry)
    (inst : NFTInstance) (dt : PrizeDrawType) (inst_id dt_id user_id def_id : ℕ)
    (origin dn : String)
    (hid : inst.id = some inst_id) (hdt : dt.id = some dt_id)
    (huid : inst.user_id = some user_id) (hdef : inst.definition_id = some def_id)
    (horig : inst.nft_origin = some origin)
    (hderive : derive_draw_number (.str origin) = .ok dn)
    (s : SessionState) (wn : Option PrizeDrawWinningNumber) (th : Option ℚ) (now : ℕ)
    (q : Option ℚ × Option (List Char) × Option (List Char) × String)
    (r : PrizeDrawResult) (j : ℕ)
    (hsc : compute_scored registry dt.algorithm_key dn wn
      (threshold_to_use th dt.default_threshold) = .ok q)
    (hno : s.results.find? (result_pair_pred inst_id dt_id) = none)
    (hdefr : s.results.find? (result_def_pred def_id dt_id) = some r)
    (hrj : r.instance_id = some j) (hne : j ≠ inst_id) :
    PrizeDrawEngine.evaluate s registry inst dt wn th now =
      .error (.valueError
        "Cannot persist prize draw results for multiple NFT instances sharing the same definition with the current schema constraint (nft_id, draw_type_id). Migrate to an instance-based uniqueness constraint to evaluate all instances.") ∧
    evaluate_calls registry inst dt [(wn, th, now)] s = s ∧
    s.results.find? (result_def_pred def_id dt_id) = some r := by
  have h1 : PrizeDrawEngine.evaluate s registry inst dt wn th now =
      .error (.valueError
        "Cannot persist prize draw results for multiple NFT instances sharing the same definition with the current schema constraint (nft_id, draw_type_id). Migrate to an instance-based uniqueness constraint to evaluate all instances.") := by
    rw [evaluate_eq s registry inst dt wn th now hid hdt huid hdef horig hderive]
    rw [hsc]
    dsimp only [Except.bind]
    rw [upsert_result_conflict s inst_id def_id user_id dt_id _ dn _ _ _ _ _ now
      hno hdefr hrj hne]
    rfl
  refine ⟨h1, ?_, hdefr⟩
  show ([(wn, th, now)].foldl _ s) = s
  rw [List.foldl_cons, List.foldl_nil]
  dsimp only
  rw [h1]

/-- C3 witness: two instances sharing definition 2; the first evaluation
from an empty store succeeds and stores a row for instance 10, and the
second instance's evaluation raises the conflict and leaves the store
with the first row intact. -/
theorem evaluate_conflicting_definition_raises_witness :
    PrizeDrawEngine.evaluate ⟨[], 0⟩ (fun _ => none)
        ⟨some 10, some 3, some 2, some "one"⟩ ⟨some 4, "alg", none⟩ none none 0 =
      .ok (⟨[⟨0, 4, none, 3, 2, some 10, "one", none, none, none, none, "pending", 0⟩], 1⟩,
           ⟨⟨0, 4, none, 3, 2, some 10, "one", none, none, none, none, "pending", 0⟩,
            "one", none, none⟩) ∧
    (10 : ℕ) ≠ 11 ∧
    (PrizeDrawEngine.evaluate
        ⟨[⟨0, 4, none, 3, 2, some 10, "one", none, none, none, none, "pending", 0⟩], 1⟩
        (fun _ => none) ⟨some 11, some 5, some 2, some "two"⟩ ⟨some 4, "alg", none⟩
        none none 1 =
      .error (.valueError
        "Cannot persist prize draw results for multiple NFT instances sharing the same definition with the current schema constraint (nft_id, draw_type_id). Migrate to an instance-based uniqueness constraint to evaluate all instances.") ∧
     evaluate_calls (fun _ => none) ⟨some 11, some 5, some 2, some "two"⟩
        ⟨some 4, "alg", none⟩ [(none, none, 1)]
        ⟨[⟨0, 4, none, 3, 2, some 10, "one", none, none, none, none, "pending", 0⟩], 1⟩ =
      ⟨[⟨0, 4, none, 3, 2, some 10, "one", none, none, none, none, "pending", 0⟩], 1⟩ ∧
     (⟨[⟨0, 4, none, 3, 2, some 10, "one", none, none, none, none, "pending", 0⟩], 1⟩ :
        SessionState).results.find? (result_def_pred 2 4) =
      some ⟨0, 4, none, 3, 2, some 10, "one", none, none, none, none, "pending", 0⟩) :=
  ⟨rfl, by decide,
   evaluate_conflicting_definition_raises (fun _ => none)
     ⟨some 11, some 5, some 2, some "two"⟩ ⟨some 4, "alg", none⟩ 11 4 5 2 "two" "two"
     rfl rfl rfl rfl rfl rfl
     ⟨[⟨0, 4, none, 3, 2, some 10, "one", none, none, none, none, "pending", 0⟩], 1⟩
     none none 1 (none, none, none, "pending")
     ⟨0, 4, none, 3, 2, some 10, "one", none, none, none, none, "pending", 0⟩ 10
     rfl rfl rfl rfl (by decide)⟩
